import Mathlib

/-!
# Laser Analyzer Tool — verification of the numerical core

Shallow embedding of the repository's numerical pipeline:

* `src/utils/binParser.js` — the binary profile decoder (`parseBinFile`),
* `src/utils/laserInterpolator.js` — the sparse-to-dense profile interpolator,
* `src/utils/triangulation.js` — the camera/laser ray–plane triangulation engine
  and the synthetic demo-profile generator,
* the RANSAC pipe detector (`detectPipe` / `fitCircle` /
  `getCircleFrom3Points`).

Conventions of the embedding:

* Bytes are `Fin 256`; an `ArrayBuffer` is a `List Byte`.
* Exact integer / fixed-point arithmetic of the decoder and of the spline
  interpolator is embedded over `ℚ` (the JavaScript doubles are exact on the
  inputs the claims exercise).  The geometric code (triangulation, demo
  profile, circle fitting) uses `Math.sqrt` / trigonometry, so it is embedded
  over `ℝ`.
* `DataView` reads in the source are always bounds-guarded before they are
  executed; the embedding uses `List.getD _ _ 0`, which agrees with the source
  on every guarded read.
* `TextDecoder('utf-8', {fatal:false}).decode` and `JSON.parse` are external
  library routines; they are abstracted as oracle parameters
  (`decodeUtf8 : List Byte → String`, `jsonParse : String → Option String`,
  the latter returning `none` exactly when `JSON.parse` throws).
* `console.warn` output is captured as a `List String` transcript returned
  next to the parsed data (message texts are abbreviated; only their presence
  and position matter to the spec).
* `Math.random()` draws are supplied as an explicit stream `ℕ → ℚ` of values
  (doubles are rationals); `Math.random` guarantees values in `[0, 1)`.
-/

namespace LaserAnalyzer

/-- A byte of the input `ArrayBuffer`. -/
abbrev Byte := Fin 256

/-- `readUInt16BE(view, offset)` — big-endian 16-bit unsigned read
(`view.getUint16(offset, false)`). -/
def readUInt16BE (bytes : List Byte) (off : ℕ) : ℕ :=
  256 * (bytes.getD off 0).val + (bytes.getD (off + 1) 0).val

/-- `readInt16BE(view, offset)` — big-endian 16-bit signed read
(`view.getInt16(offset, false)`): two's-complement reinterpretation of the
unsigned value. -/
def readInt16BE (bytes : List Byte) (off : ℕ) : ℤ :=
  let u := readUInt16BE bytes off
  if u < 32768 then (u : ℤ) else (u : ℤ) - 65536

/-- 12.4 fixed-point decoding of a raw yOffset: `yOffset = raw / 16.0`. -/
def decodeYOffset12_4 (raw : ℕ) : ℚ := (raw : ℚ) / 16

/-- `ProfilePoint` as assembled by `parseBinFile` (binParser.js). -/
structure ProfilePoint where
  column : ℕ
  yOffset : ℚ
  intensity : ℕ
  width : ℕ
  valid : Bool
deriving Repr, DecidableEq

/-- One 4-byte point record at byte offset `pointOffset`:
2-byte big-endian raw yOffset, 1-byte intensity, 1-byte width;
`valid = width > 0`. -/
def parsePointRecord (bytes : List Byte) (pointOffset : ℕ) (col : ℕ) :
    ProfilePoint :=
  let yOffsetRaw := readUInt16BE bytes pointOffset
  let intensity := (bytes.getD (pointOffset + 2) 0).val
  let width := (bytes.getD (pointOffset + 3) 0).val
  { column := col
    yOffset := decodeYOffset12_4 yOffsetRaw
    intensity := intensity
    width := width
    valid := decide (width > 0) }

/-- The `P` point records of one profile, starting at byte offset `off`
(point `col` sits at `off + col * 4`). -/
def parseProfilePoints (bytes : List Byte) (P : ℕ) (off : ℕ) :
    List ProfilePoint :=
  (List.range P).map (fun col => parsePointRecord bytes (off + col * 4) col)

/-- `LaserProfile` as assembled by `parseBinFile`. -/
structure LaserProfile where
  index : ℕ
  comment : Option String
  rawComment : String
  points : List ProfilePoint
  validCount : ℕ
  startOffset : ℕ
deriving Repr, DecidableEq

/-- `.replace(/\0+$/, '')` — strip trailing NUL characters. -/
def stripTrailingNuls (s : String) : String :=
  ⟨(s.data.reverse.dropWhile (· = Char.ofNat 0)).reverse⟩

/-- Bytes consumed by the comment section after the 2-byte length field:
`commentLength` bytes when `commentLength > 0`, none otherwise (step 2 of the
loop body runs only under `if (commentLength > 0)`). -/
def commentSkip (bytes : List Byte) (off : ℕ) : ℕ :=
  let C := readInt16BE bytes off
  if C > 0 then C.toNat else 0

/-- `(rawComment, comment)` of the profile whose comment-length field sits at
byte offset `off`: when `commentLength > 0`, the comment bytes are decoded as
UTF-8, trailing NULs stripped, and a `JSON.parse` is attempted; otherwise the
initial values `('', null)` are kept. -/
def commentData (decodeUtf8 : List Byte → String)
    (jsonParse : String → Option String)
    (bytes : List Byte) (off : ℕ) : String × Option String :=
  let C := readInt16BE bytes off
  if C > 0 then
    let commentBytes := (bytes.drop (off + 2)).take C.toNat
    let raw := stripTrailingNuls (decodeUtf8 commentBytes)
    (raw, jsonParse raw)
  else ("", none)

/-- The profile-parsing loop of `parseBinFile` (binParser.js lines 129–223).

`fuel` is the remaining iteration budget `MAX_PROFILES - profileIndex`;
`off` is the current byte offset, `idx` the current profile index.
Returns the profiles parsed plus the `console.warn` transcript of the loop.
Every `break` of the source is a branch returning the accumulator here
(the loop never throws: every read is bounds-guarded). -/
def parseProfiles (decodeUtf8 : List Byte → String)
    (jsonParse : String → Option String)
    (bytes : List Byte) (P : ℕ) :
    ℕ → ℕ → ℕ → List LaserProfile × List String
  | 0, _, _ => ([], [])
  | fuel + 1, off, idx =>
    if off < bytes.length then
      -- 1. Read Comment Length (2 bytes, big-endian)
      if off + 2 > bytes.length then
        ([], ["Truncated at comment length"])
      -- 2. Read Comment Data (only when commentLength > 0)
      else if readInt16BE bytes off > 0
          ∧ off + 2 + (readInt16BE bytes off).toNat > bytes.length then
        ([], ["Comment extends beyond file"])
      else
        let rc := commentData decodeUtf8 jsonParse bytes off
        let jsonWarns := if readInt16BE bytes off > 0 ∧ rc.2.isNone then
            ["Failed to parse comment as JSON"] else []
        let off2 := off + 2 + commentSkip bytes off
        -- 3. Read Profile Data (P × 4 bytes)
        if off2 + P * 4 > bytes.length then
          ([], jsonWarns ++ ["Truncated profile data"])
        else
          let points := parseProfilePoints bytes P off2
          let profile : LaserProfile :=
            { index := idx
              comment := rc.2
              rawComment := rc.1
              points := points
              validCount := (points.filter (·.valid)).length
              startOffset := off }
          let rest := parseProfiles decodeUtf8 jsonParse bytes P fuel
            (off2 + P * 4) (idx + 1)
          (profile :: rest.1, jsonWarns ++ rest.2)
    else ([], [])

/-- `MAX_PROFILES` safety cap of the profile loop. -/
def MAX_PROFILES : ℕ := 10000

/-- `BinFileHeader`. -/
structure BinFileHeader where
  format : ℕ
  version : ℕ
  headerSize : ℕ
  pointsPerProfile : ℕ
  reserved0 : ℕ
  reserved1 : ℕ
deriving Repr, DecidableEq

/-- `BinFileData` — the value returned by `parseBinFile`. -/
structure BinFileData where
  header : BinFileHeader
  profiles : List LaserProfile
  profileCount : ℕ
deriving Repr, DecidableEq

/-- High byte of the first big-endian 16-bit field: `(fv & 0xFF00) >> 8`
(equals `fv / 256` for `fv < 65536`). -/
def headerFormat (bytes : List Byte) : ℕ := readUInt16BE bytes 0 / 256

/-- Low byte of the first big-endian 16-bit field: `fv & 0x00FF`. -/
def headerVersion (bytes : List Byte) : ℕ := readUInt16BE bytes 0 % 256

/-- `pointsPerProfile` header field (bytes 4–5, big-endian). -/
def headerPointsPerProfile (bytes : List Byte) : ℕ := readUInt16BE bytes 4

/-- `headerSize` header field (bytes 2–3, big-endian). -/
def headerSizeField (bytes : List Byte) : ℕ := readUInt16BE bytes 2

/-- `parseBinFile(buffer)` (binParser.js lines 87–230).

A thrown `Error` is `Except.error`; a successful return carries the
`BinFileData` plus the `console.warn` transcript. -/
def parseBinFile (decodeUtf8 : List Byte → String)
    (jsonParse : String → Option String) (bytes : List Byte) :
    Except String (BinFileData × List String) :=
  if bytes.length < 12 then
    .error "File too small, must be at least 12 bytes for the header."
  else
    let format := headerFormat bytes
    let version := headerVersion bytes
    let headerSize := headerSizeField bytes
    let pointsPerProfile := headerPointsPerProfile bytes
    let reserved0 := readUInt16BE bytes 6
    let reserved1 := readUInt16BE bytes 8
    if format ≠ 2 then .error "Invalid format (expected 2)."
    else
      let versionWarns :=
        if version ≠ 1 then ["Unexpected version (expected 1)"] else []
      if pointsPerProfile = 0 then
        .error "Points per profile is 0, invalid file."
      else
        let r := parseProfiles decodeUtf8 jsonParse bytes pointsPerProfile
          MAX_PROFILES headerSize 0
        .ok ({ header := { format := format, version := version
                           headerSize := headerSize
                           pointsPerProfile := pointsPerProfile
                           reserved0 := reserved0, reserved1 := reserved1 }
               profiles := r.1
               profileCount := r.1.length }, versionWarns ++ r.2)

/-! ## Pipe detector (RANSAC variant, `detectPipe` / `fitCircle`) -/

/-- `SensorPoint3D` — a world point `{x, y, z}`; the detector reads only the
`x` and `z` fields. -/
structure Vec3 where
  x : ℝ
  y : ℝ
  z : ℝ

/-- A circle hypothesis `{cx, cz, radius}` in the X–Z cross-section plane. -/
structure Circle2 where
  cx : ℝ
  cz : ℝ
  radius : ℝ

/-- `getCircleFrom3Points(p1, p2, p3)` — the unique circle through three
points via perpendicular-bisector algebra; `null` when the 2×2 determinant
magnitude is below `1e-6` (degenerate / near-collinear triple). -/
noncomputable def getCircleFrom3Points (p1 p2 p3 : Vec3) : Option Circle2 :=
  let x1 := p1.x; let y1 := p1.z
  let x2 := p2.x; let y2 := p2.z
  let x3 := p3.x; let y3 := p3.z
  let b := x2 - x1
  let c := y2 - y1
  let d := x3 - x1
  let e := y3 - y1
  let f := x2 * x2 - x1 * x1 + y2 * y2 - y1 * y1
  let g := x3 * x3 - x1 * x1 + y3 * y3 - y1 * y1
  let det := 2 * (b * e - c * d)
  if |det| < 1e-6 then none
  else
    let cx := (e * f - c * g) / det
    let cz := (b * g - d * f) / det
    some { cx := cx, cz := cz
           radius := Real.sqrt ((x1 - cx) ^ 2 + (y1 - cz) ^ 2) }

/-- The `{cx, cz, radius, rms}` record returned by `fitCircle`. -/
structure FitResult where
  cx : ℝ
  cz : ℝ
  radius : ℝ
  rms : ℝ

/-- `det3(m)` — determinant of a 3×3 matrix given row-major. -/
def det3 (a₁ a₂ a₃ b₁ b₂ b₃ c₁ c₂ c₃ : ℝ) : ℝ :=
  a₁ * (b₂ * c₃ - b₃ * c₂) - a₂ * (b₁ * c₃ - b₃ * c₁) + a₃ * (b₁ * c₂ - b₂ * c₁)

/-- `fitCircle(points)` — algebraic Kåsa least-squares circle fit: solve the
3×3 normal equations for `(D, E, F)` by Cramer's rule; `null` when fewer than
3 points, when `|detA| < 1e-12`, or when the radius-squared is non-positive. -/
noncomputable def fitCircle (points : List Vec3) : Option FitResult :=
  let n := points.length
  if n < 3 then none
  else
    let Sx := (points.map (fun p => p.x)).sum
    let Sz := (points.map (fun p => p.z)).sum
    let Sx2 := (points.map (fun p => p.x ^ 2)).sum
    let Sz2 := (points.map (fun p => p.z ^ 2)).sum
    let Sxz := (points.map (fun p => p.x * p.z)).sum
    let Sx3 := (points.map (fun p => p.x ^ 3)).sum
    let Sz3 := (points.map (fun p => p.z ^ 3)).sum
    let Sx2z := (points.map (fun p => p.x ^ 2 * p.z)).sum
    let Sxz2 := (points.map (fun p => p.x * p.z ^ 2)).sum
    let b₁ := -(Sx3 + Sxz2)
    let b₂ := -(Sx2z + Sz3)
    let b₃ := -(Sx2 + Sz2)
    let detA := det3 Sx2 Sxz Sx Sxz Sz2 Sz Sx Sz (n : ℝ)
    if |detA| < 1e-12 then none
    else
      let D := det3 b₁ Sxz Sx b₂ Sz2 Sz b₃ Sz (n : ℝ) / detA
      let E := det3 Sx2 b₁ Sx Sxz b₂ Sz Sx b₃ (n : ℝ) / detA
      let F := det3 Sx2 Sxz b₁ Sxz Sz2 b₂ Sx Sz b₃ / detA
      let cx := -D / 2
      let cz := -E / 2
      let rSquared := (D * D + E * E) / 4 - F
      if rSquared ≤ 0 then none
      else
        let radius := Real.sqrt rSquared
        let sumSqRes := (points.map (fun p =>
          (Real.sqrt ((p.x - cx) ^ 2 + (p.z - cz) ^ 2) - radius) ^ 2)).sum
        some { cx := cx, cz := cz, radius := radius
               rms := Real.sqrt (sumSqRes / n) }

/-- `searchIndices[Math.floor(r * searchIndices.length)]` — index drawn from
the candidate set by one `Math.random()` value `r`. -/
def drawIndex (searchIndices : List ℕ) (r : ℚ) : ℕ :=
  searchIndices.getD (Int.toNat ⌊r * searchIndices.length⌋) 0

/-- State of the RANSAC loop: best circle so far and its inlier indices. -/
structure RansacState where
  bestCircle : Option Circle2
  bestInliers : List ℕ

/-- The inlier scan of one RANSAC iteration: candidate indices whose distance
to the hypothesized centre is within `tolerance` of the hypothesized
radius. -/
noncomputable def countInliers (points : List Vec3) (searchIndices : List ℕ)
    (circle : Circle2) (tolerance : ℝ) : List ℕ :=
  searchIndices.filter (fun idx =>
    let p := points.getD idx ⟨0, 0, 0⟩
    decide (|Real.sqrt ((p.x - circle.cx) ^ 2 + (p.z - circle.cz) ^ 2)
      - circle.radius| < tolerance))

/-- One iteration of the RANSAC loop of `detectPipe` (draws three indices
from the stream, builds the candidate circle, applies the radius and
centre-depth constraints, and keeps the hypothesis with the most
inliers). -/
noncomputable def ransacStep (points : List Vec3) (searchIndices : List ℕ)
    (expectedRadius radTol tolerance : ℝ) (rnd : ℕ → ℚ)
    (st : RansacState) (iter : ℕ) : RansacState :=
  let idx1 := drawIndex searchIndices (rnd (3 * iter))
  let idx2 := drawIndex searchIndices (rnd (3 * iter + 1))
  let idx3 := drawIndex searchIndices (rnd (3 * iter + 2))
  if idx1 = idx2 ∨ idx2 = idx3 ∨ idx1 = idx3 then st
  else
    let p1 := points.getD idx1 ⟨0, 0, 0⟩
    let p2 := points.getD idx2 ⟨0, 0, 0⟩
    let p3 := points.getD idx3 ⟨0, 0, 0⟩
    match getCircleFrom3Points p1 p2 p3 with
    | none => st
    | some circ =>
      -- Constraint: Radius must be reasonably close to expected
      if |circ.radius - expectedRadius| > radTol then st
      -- Constraint: Center must be "below" the points (larger Z)
      else if circ.cz < p1.z ∧ circ.cz < p2.z ∧ circ.cz < p3.z then st
      else
        let inliers := countInliers points searchIndices circ tolerance
        if st.bestInliers.length < inliers.length then
          { bestCircle := some circ, bestInliers := inliers }
        else st

/-- The candidate index set of `detectPipe`: indices within
`±1.5·expectedRadius` of the previous centre's x when a previous detection
is supplied, expanded to the whole profile when that yields fewer than 20
candidates (or no previous result exists). -/
noncomputable def searchIndicesFor (points : List Vec3)
    (expectedRadius : ℝ) (prevResult : Option Circle2) : List ℕ :=
  let searchIndices0 :=
    match prevResult with
    | some prev =>
      (List.range points.length).filter (fun i =>
        let p := points.getD i ⟨0, 0, 0⟩
        decide (prev.cx - expectedRadius * 1.5 ≤ p.x
          ∧ p.x ≤ prev.cx + expectedRadius * 1.5))
    | none => []
  if searchIndices0.length < 20 then List.range points.length
  else searchIndices0

/-- The RANSAC loop: 100 iterations folded over the initial empty state. -/
noncomputable def ransacBest (points : List Vec3) (searchIndices : List ℕ)
    (expectedRadius radTol tolerance : ℝ) (rnd : ℕ → ℚ) : RansacState :=
  (List.range 100).foldl
    (ransacStep points searchIndices expectedRadius radTol tolerance rnd)
    { bestCircle := none, bestInliers := [] }

/-- The `PipeDetection` record returned by `detectPipe`. -/
structure PipeDetection where
  cx : ℝ
  cz : ℝ
  radius : ℝ
  rms : ℝ
  diameter : ℝ
  inlierStart : ℕ
  inlierEnd : ℕ

/-- `detectPipe(points, expectedDiameter, {prevResult, tolerance})` — the
robust RANSAC pipe detector (the randomness of `Math.random()` is supplied
as the explicit stream `rnd`). -/
noncomputable def detectPipe (points : List Vec3) (expectedDiameter : ℝ)
    (prevResult : Option Circle2) (tolerance : ℝ) (rnd : ℕ → ℚ) :
    Option PipeDetection :=
  if points.length < 15 then none
  else
    let expectedRadius := expectedDiameter / 2
    let radTol := expectedRadius * 0.25
    let searchIndices := searchIndicesFor points expectedRadius prevResult
    let st := ransacBest points searchIndices expectedRadius radTol tolerance rnd
    match st.bestCircle with
    | none => none
    | some _ =>
      if st.bestInliers.length < 15 then none
      else
        match fitCircle (st.bestInliers.map
            (fun i => points.getD i ⟨0, 0, 0⟩)) with
        | none => none
        | some refined =>
          some { cx := refined.cx, cz := refined.cz
                 radius := refined.radius, rms := refined.rms
                 diameter := refined.radius * 2
                 inlierStart := (st.bestInliers.min?).getD 0
                 inlierEnd := (st.bestInliers.max?).getD 0 }

/-! ## Profile interpolator (`laserInterpolator.js`) -/

/-- A profile point as consumed and produced by the spline interpolator
(`interpolateLaserProfile`); numeric fields are rationals (JS doubles). -/
structure IPoint where
  column : ℤ
  yOffset : ℚ
  intensity : ℚ
  width : ℚ
  valid : Bool
deriving Repr, DecidableEq, Inhabited

/-- `Math.round` — half-up rounding (ties toward +∞). -/
def jsRound (q : ℚ) : ℚ := (⌊q + 1 / 2⌋ : ℤ)

/-- `Math.max(0, Math.min(255, n))`. -/
def clamp255 (q : ℚ) : ℚ := max 0 (min 255 q)

/-- Assignment `interpolated[i] = pt` on the dense cell array (modelled as a
function from cell index to optional point; `new Array(n)` starts with every
cell undefined). -/
def writeCell (st : ℕ → Option IPoint) (i : ℕ) (pt : IPoint) :
    ℕ → Option IPoint :=
  fun j => if j = i then some pt else st j

/-- `validPoints.sort((a, b) => a.column - b.column)` — sort ascending by
column (insertion sort; ties may be ordered differently from JS's stable
sort, which no claim depends on). -/
def sortByColumn (l : List IPoint) : List IPoint :=
  l.insertionSort (fun a b => a.column ≤ b.column)

/-- `Math.max(...validPoints.map(p => p.column))` (the call sites guarantee
a nonempty list). -/
def maxColumn (l : List IPoint) : ℤ :=
  ((l.map (·.column)).max?).getD 0

instance : IsTotal IPoint (fun a b => a.column ≤ b.column) :=
  ⟨fun a b => le_total a.column b.column⟩

instance : IsTrans IPoint (fun a b => a.column ≤ b.column) :=
  ⟨fun _ _ _ hab hbc => le_trans hab hbc⟩

/-- The cubic-Hermite fill point of `interpolateLaserProfile` at column
`col` strictly between the scaled points `p1 = scaledPoints[i]` and
`p2 = scaledPoints[i+1]`; the tangents index the **original** `points`
array, exactly as the source does. -/
def hermitePoint (points : List IPoint) (scaledLen : ℕ) (i : ℕ)
    (p1 p2 : IPoint) (col : ℤ) : IPoint :=
  let t : ℚ := ((col : ℚ) - (p1.column : ℚ))
    / ((p2.column : ℚ) - (p1.column : ℚ))
  let t2 := t * t
  let t3 := t2 * t
  let h00 := 2 * t3 - 3 * t2 + 1
  let h10 := t3 - 2 * t2 + t
  let h01 := -2 * t3 + 3 * t2
  let h11 := t3 - t2
  let m1 : ℚ :=
    if 0 < i then (p2.yOffset - (points.getD (i - 1) default).yOffset) / 2
    else 0
  let m2 : ℚ :=
    if i < scaledLen - 2 then ((points.getD (i + 2) default).yOffset - p1.yOffset) / 2
    else 0
  let width := jsRound (p1.width + t * (p2.width - p1.width))
  { column := col
    yOffset := h00 * p1.yOffset + h10 * m1 + h01 * p2.yOffset + h11 * m2
    intensity := clamp255 (jsRound (p1.intensity + t * (p2.intensity - p1.intensity)))
    width := clamp255 width
    valid := decide (0 < width) }

/-- "Place actual points": store each scaled point at its own (in-range)
column. -/
def placePoints (T : ℕ) (scaledPoints : List IPoint)
    (st : ℕ → Option IPoint) : ℕ → Option IPoint :=
  scaledPoints.foldl
    (fun st p =>
      if 0 ≤ p.column ∧ p.column < (T : ℤ) then writeCell st p.column.toNat p
      else st) st

/-- The spline fill between the adjacent scaled points `i` and `i + 1`
(columns `startCol+1 .. endCol-1`, only when the gap exceeds 1). -/
def fillBetween (T : ℕ) (points scaledPoints : List IPoint) (i : ℕ)
    (st : ℕ → Option IPoint) : ℕ → Option IPoint :=
  let p1 := scaledPoints.getD i default
  let p2 := scaledPoints.getD (i + 1) default
  let startCol := max 0 p1.column
  let endCol := min ((T : ℤ) - 1) p2.column
  if 1 < endCol - startCol then
    (List.range (endCol - startCol - 1).toNat).foldl
      (fun st (k : ℕ) =>
        writeCell st (startCol + 1 + (k : ℤ)).toNat
          (hermitePoint points scaledPoints.length i p1 p2
            (startCol + 1 + (k : ℤ))))
      st
  else st

/-- The spline fill over every adjacent pair of scaled points. -/
def fillAll (T : ℕ) (points scaledPoints : List IPoint)
    (st : ℕ → Option IPoint) : ℕ → Option IPoint :=
  (List.range (scaledPoints.length - 1)).foldl
    (fun st i => fillBetween T points scaledPoints i st) st

/-- `extrapolateEdges` left loop: hold the first scaled point's values on
every still-empty column before it. -/
def extrapolateLeft (T : ℕ) (first : IPoint)
    (st : ℕ → Option IPoint) : ℕ → Option IPoint :=
  (List.range (min first.column (T : ℤ)).toNat).foldl
    (fun st (col : ℕ) =>
      if st col = none then
        writeCell st col
          { column := (col : ℤ), yOffset := first.yOffset
            intensity := first.intensity, width := first.width
            valid := first.valid }
      else st) st

/-- `extrapolateEdges` right loop: hold the last scaled point's values on
every still-empty column after it. -/
def extrapolateRight (T : ℕ) (last : IPoint)
    (st : ℕ → Option IPoint) : ℕ → Option IPoint :=
  (List.range T).foldl
    (fun st (col : ℕ) =>
      if last.column + 1 ≤ (col : ℤ) ∧ st col = none then
        writeCell st col
          { column := (col : ℤ), yOffset := last.yOffset
            intensity := last.intensity, width := last.width
            valid := last.valid }
      else st) st

/-- `extrapolateEdges(interpolated, points, targetResolution)`. -/
def extrapolateEdges (T : ℕ) (scaledPoints : List IPoint)
    (st : ℕ → Option IPoint) : ℕ → Option IPoint :=
  match scaledPoints with
  | [] => st
  | first :: _ =>
    extrapolateRight T (scaledPoints.getLastD default)
      (extrapolateLeft T first st)

/-- The scaled copy of the sorted valid points:
`column ↦ Math.round(column * targetResolution / maxColumn)`. -/
def scalePoints (T : ℕ) (maxCol : ℤ) (sorted : List IPoint) : List IPoint :=
  sorted.map (fun p =>
    { p with column := (⌊(p.column : ℚ) * ((T : ℚ) / (maxCol : ℚ)) + 1 / 2⌋ : ℤ) })

/-- `interpolateLaserProfile(points, targetResolution, imageWidth)` — the
dense cell array of length `targetResolution` (`none` = cell left undefined
by the source). `imageWidth` is accepted but unused, as in the source. -/
def interpolateLaserProfile (points : List IPoint) (targetResolution : ℕ)
    (imageWidth : ℕ) : List (Option IPoint) :=
  if points = [] then []
  else
    let validPoints := points.filter (·.valid)
    if validPoints = [] then []
    else
      let sorted := sortByColumn validPoints
      let scaledPoints := scalePoints targetResolution (maxColumn validPoints) sorted
      let st1 := placePoints targetResolution scaledPoints (fun _ => none)
      let st2 := fillAll targetResolution points scaledPoints st1
      let st3 := extrapolateEdges targetResolution scaledPoints st2
      (List.range targetResolution).map st3

/-- A profile point as consumed and produced by the Gaussian variant
`createRealisticLaserProfile`; its arithmetic involves `Math.exp`, so the
numeric fields are reals. -/
structure GPoint where
  column : ℤ
  yOffset : ℝ
  intensity : ℝ
  width : ℝ
  valid : Bool

/-- `Math.round` over the reals. -/
noncomputable def jsRoundR (x : ℝ) : ℤ := ⌊x + 1 / 2⌋

/-- `Math.max(...validPoints.map(p => p.column))` for `GPoint`s. -/
def gaussMaxColumn (l : List GPoint) : ℤ :=
  ((l.map (·.column)).max?).getD 0

/-- The Gaussian kernel weight of a source point for output column `col`:
`exp(-distance² / (2σ²))` with `σ = T / (4·|validPoints|)` and the distance
taken to the source point's scaled column. -/
noncomputable def gaussWeight (validPoints : List GPoint) (T : ℕ) (col : ℕ)
    (pt : GPoint) : ℝ :=
  let scaledCol : ℤ :=
    ⌊(pt.column : ℝ) * (T : ℝ) / (gaussMaxColumn validPoints : ℝ) + 1 / 2⌋
  let distance : ℝ := |(col : ℝ) - (scaledCol : ℝ)|
  let sigma : ℝ := (T : ℝ) / ((validPoints.length : ℝ) * 4)
  Real.exp (-(distance * distance) / (2 * sigma * sigma))

/-- `createRealisticLaserProfile(points, targetResolution)` — Gaussian-kernel
weighted averaging across all valid source points; a cell is set only when
its total weight is positive. -/
noncomputable def createRealisticLaserProfile (points : List GPoint)
    (T : ℕ) : List (Option GPoint) :=
  let validPoints := points.filter (·.valid)
  if validPoints.length = 0 then []
  else
    (List.range T).map (fun col =>
      let totalWeight := (validPoints.map (gaussWeight validPoints T col)).sum
      if 0 < totalWeight then
        some
          { column := (col : ℤ)
            yOffset := (validPoints.map
              (fun pt => pt.yOffset * gaussWeight validPoints T col pt)).sum
              / totalWeight
            intensity := (jsRoundR ((validPoints.map
              (fun pt => pt.intensity * gaussWeight validPoints T col pt)).sum
              / totalWeight) : ℝ)
            width := (jsRoundR ((validPoints.map
              (fun pt => pt.width * gaussWeight validPoints T col pt)).sum
              / totalWeight) : ℝ)
            valid := decide (0 < (validPoints.map
              (fun pt => pt.width * gaussWeight validPoints T col pt)).sum
              / totalWeight) }
      else none)

/-- The ProfilePoint data-model invariant: `valid = (width > 0)`. -/
def IPointOK (pt : IPoint) : Prop := pt.valid = decide (0 < pt.width)

/-- The cell-array invariant: every defined cell satisfies `IPointOK`. -/
def StOK (st : ℕ → Option IPoint) : Prop :=
  ∀ c pt, st c = some pt → IPointOK pt

/-! ## Triangulation engine (`triangulation.js`) -/

/-- Degrees → radians (`deg * Math.PI / 180`). -/
noncomputable def degToRad (d : ℝ) : ℝ := d * Real.pi / 180

/-- A quaternion `(x, y, z, w)`. -/
structure Quat where
  x : ℝ
  y : ℝ
  z : ℝ
  w : ℝ

/-- `THREE.Quaternion.setFromEuler` for rotation order `'XYZ'`. -/
noncomputable def quatFromEulerXYZ (ex ey ez : ℝ) : Quat :=
  let c1 := Real.cos (ex / 2)
  let c2 := Real.cos (ey / 2)
  let c3 := Real.cos (ez / 2)
  let s1 := Real.sin (ex / 2)
  let s2 := Real.sin (ey / 2)
  let s3 := Real.sin (ez / 2)
  { x := s1 * c2 * c3 + c1 * s2 * s3
    y := c1 * s2 * c3 - s1 * c2 * s3
    z := c1 * c2 * s3 + s1 * s2 * c3
    w := c1 * c2 * c3 - s1 * s2 * s3 }

/-- `THREE.Vector3.applyQuaternion`
(`v + q.w * t + cross(q.xyz, t)` with `t = 2 * cross(q.xyz, v)`). -/
noncomputable def applyQuaternion (q : Quat) (v : Vec3) : Vec3 :=
  let tx := 2 * (q.y * v.z - q.z * v.y)
  let ty := 2 * (q.z * v.x - q.x * v.z)
  let tz := 2 * (q.x * v.y - q.y * v.x)
  { x := v.x + q.w * tx + q.y * tz - q.z * ty
    y := v.y + q.w * ty + q.z * tx - q.x * tz
    z := v.z + q.w * tz + q.x * ty - q.y * tx }

/-- `THREE.Vector3.normalize` — `divideScalar(length || 1)`. -/
noncomputable def normalizeV (v : Vec3) : Vec3 :=
  let len := Real.sqrt (v.x ^ 2 + v.y ^ 2 + v.z ^ 2)
  let d := if len = 0 then 1 else len
  ⟨v.x / d, v.y / d, v.z / d⟩

/-- Dot product. -/
noncomputable def dotV (a b : Vec3) : ℝ := a.x * b.x + a.y * b.y + a.z * b.z

/-- The pose configuration consumed by `triangulate2Dto3D` /
`generateDemoProfile` (`params`). -/
structure TriParams where
  focalLength : ℝ
  pixelSize : ℝ
  imageWidth : ℝ
  imageHeight : ℝ
  camX : ℝ
  camY : ℝ
  camZ : ℝ
  camPitch : ℝ
  camYaw : ℝ
  camRoll : ℝ
  laserX : ℝ
  laserY : ℝ
  laserZ : ℝ
  laserPitch : ℝ
  laserYaw : ℝ
  laserRoll : ℝ

/-- Camera world position. -/
noncomputable def camPos (p : TriParams) : Vec3 := ⟨p.camX, p.camY, p.camZ⟩

/-- Camera orientation quaternion: Euler
`(-(camPitch)·π/180, camYaw·π/180, camRoll·π/180)` in `'XYZ'` order. -/
noncomputable def cameraQuat (p : TriParams) : Quat :=
  quatFromEulerXYZ (-(degToRad p.camPitch)) (degToRad p.camYaw)
    (degToRad p.camRoll)

/-- Laser orientation quaternion (same convention, pitch negated). -/
noncomputable def laserQuat (p : TriParams) : Quat :=
  quatFromEulerXYZ (-(degToRad p.laserPitch)) (degToRad p.laserYaw)
    (degToRad p.laserRoll)

/-- Laser plane world normal: the local normal `(0, -1, 0)` rotated by the
laser orientation, then normalized. -/
noncomputable def laserPlaneNormal (p : TriParams) : Vec3 :=
  normalizeV (applyQuaternion (laserQuat p) ⟨0, -1, 0⟩)

/-- Laser world position (the coplanar point anchoring the plane). -/
noncomputable def laserPlanePoint (p : TriParams) : Vec3 :=
  ⟨p.laserX, p.laserY, p.laserZ⟩

/-- `THREE.Plane.setFromNormalAndCoplanarPoint`:
`constant = -(point ⋅ normal)`. -/
noncomputable def laserPlaneConstant (p : TriParams) : ℝ :=
  -(dotV (laserPlanePoint p) (laserPlaneNormal p))

/-- `THREE.Ray.intersectPlane` (via `distanceToPlane`): `null` when the
denominator is zero and the origin is off the plane, or when the parameter
`t` is negative; otherwise `origin + t · dir`. -/
noncomputable def rayIntersectPlane (origin dir normal : Vec3)
    (constant : ℝ) : Option Vec3 :=
  if dotV normal dir = 0 then
    if dotV normal origin + constant = 0 then some origin else none
  else if 0 ≤ -(dotV origin normal + constant) / dotV normal dir then
    some ⟨origin.x + -(dotV origin normal + constant) / dotV normal dir * dir.x,
          origin.y + -(dotV origin normal + constant) / dotV normal dir * dir.y,
          origin.z + -(dotV origin normal + constant) / dotV normal dir * dir.z⟩
  else none

/-- Camera-local ray direction of pixel `(u, v)` before normalization:
`((u-cx)·pxMm/f, (cy-v)·pxMm/f, 1)` with the principal point at the image
centre and the 1152-row fallback when `imageHeight` is absent/zero. -/
noncomputable def localRayDir (p : TriParams) (u v : ℝ) : Vec3 :=
  let cx := p.imageWidth / 2
  let cy := (if p.imageHeight = 0 then 1152 else p.imageHeight) / 2
  let pxMm := p.pixelSize / 1000
  ⟨(u - cx) * pxMm / p.focalLength, (cy - v) * pxMm / p.focalLength, 1⟩

/-- One loop body of `triangulate2Dto3D`: the accepted intersection point of
pixel `(u, v)`; `none` when the ray misses the laser plane or the hit is not
strictly deeper than the camera. -/
noncomputable def triangulatePixel (p : TriParams) (uv : ℝ × ℝ) :
    Option Vec3 :=
  match rayIntersectPlane (camPos p)
      (applyQuaternion (cameraQuat p) (normalizeV (localRayDir p uv.1 uv.2)))
      (laserPlaneNormal p) (laserPlaneConstant p) with
  | none => none
  | some pt => if pt.z > (camPos p).z then some pt else none

/-- `points.push(...)` of one loop iteration: appends the accepted point of
a pixel, if any, to the accumulated output. -/
noncomputable def pushAccepted (p : TriParams) (acc : List Vec3)
    (uv : ℝ × ℝ) : List Vec3 :=
  match triangulatePixel p uv with
  | some pt => acc ++ [pt]
  | none => acc

/-- `triangulate2Dto3D(pixelColumns, pixelRows, params)` — the loop over
`i < pixelColumns.length` reading `pixelRows[i]` pointwise (the zip of the
two arrays), pushing each accepted point. -/
noncomputable def triangulate2Dto3D (pixelColumns pixelRows : List ℝ)
    (p : TriParams) : List Vec3 :=
  (pixelColumns.zip pixelRows).foldl (pushAccepted p) []

/-- `getYOnPlane(x, z)` inside `generateDemoProfile`: back-solves y from the
plane equation, except that it returns 0 when `|normal.y| < 1e-6`. -/
noncomputable def getYOnPlane (normal planePoint : Vec3) (x z : ℝ) : ℝ :=
  if |normal.y| < 1e-6 then 0
  else planePoint.y
    - (normal.x * (x - planePoint.x) + normal.z * (z - planePoint.z))
      / normal.y

/-- The point of `generateDemoProfile` at loop index `i`: seabed at
`camZ + 1500` with sinusoidal texture, upper pipe arc where `|dx| ≤ radius`,
y back-solved from the laser plane equation. -/
noncomputable def demoPoint (p : TriParams)
    (pipeDiameterMm pipeOffsetX : ℝ) (numPoints : ℕ) (i : ℕ) : Vec3 :=
  let pipeRadius := pipeDiameterMm / 2
  let normal := laserPlaneNormal p
  let planePoint := laserPlanePoint p
  let seabedZ := p.camZ + 1500
  let pipeCentreX := pipeOffsetX
  let pipeCentreZ := seabedZ - pipeRadius
  let profileExtent := pipeDiameterMm * 3
  let xMin := pipeCentreX - profileExtent
  let xMax := pipeCentreX + profileExtent
  let step := (xMax - xMin) / ((numPoints : ℝ) - 1)
  let x := xMin + (i : ℝ) * step
  let dx := x - pipeCentreX
  let z :=
    if |dx| ≤ pipeRadius then
      pipeCentreZ - Real.sqrt (pipeRadius * pipeRadius - dx * dx)
    else
      seabedZ + (Real.sin (x * 0.05) * 0.5 + Real.sin (x * 0.13) * 0.3)
  ⟨x, getYOnPlane normal planePoint x z, z⟩

/-- `generateDemoProfile(params, pipeDiameterMm, pipeOffsetX, numPoints)` —
the returned `points` array. -/
noncomputable def generateDemoProfile (p : TriParams)
    (pipeDiameterMm pipeOffsetX : ℝ) (numPoints : ℕ) : List Vec3 :=
  (List.range numPoints).map (demoPoint p pipeDiameterMm pipeOffsetX numPoints)

/-- Plane-equation residual `normal ⋅ (pt − planePoint)` of a point against
the laser plane of a pose. -/
noncomputable def planeResidual (p : TriParams) (pt : Vec3) : ℝ :=
  dotV (laserPlaneNormal p)
    ⟨pt.x - (laserPlanePoint p).x, pt.y - (laserPlanePoint p).y,
      pt.z - (laserPlanePoint p).z⟩

/-! ### Concrete inputs used by witnesses and counterexamples -/

/-- Pose with all angles and positions zero (focal length 1 mm, pixel size
1000 µm, image width 0 — the source then uses the 1152-row fallback). -/
noncomputable def zeroParams : TriParams :=
  { focalLength := 1, pixelSize := 1000, imageWidth := 0, imageHeight := 0
    camX := 0, camY := 0, camZ := 0, camPitch := 0, camYaw := 0, camRoll := 0
    laserX := 0, laserY := 0, laserZ := 0
    laserPitch := 0, laserYaw := 0, laserRoll := 0 }

/-- `zeroParams` with the laser pitched 90°: the laser plane becomes the
horizontal plane `z = laserZ = 0`. -/
noncomputable def pitchParams : TriParams := { zeroParams with laserPitch := 90 }

/-- Laser pitched 90° and placed at `z = -10`: the laser plane
(`z = -10`) lies entirely behind the camera (`z = 0`). -/
noncomputable def behindParams : TriParams :=
  { zeroParams with laserPitch := 90, laserZ := -10 }

/-- Laser pitched 90° and placed at `z = 10`: the plane `z = 10` is in
front of the camera. -/
noncomputable def frontParams : TriParams :=
  { zeroParams with laserPitch := 90, laserZ := 10 }

/-- Constant-zero random stream (a legal `Math.random` trace). -/
def rnd0 : ℕ → ℚ := fun _ => 0

/-- Random stream whose first three draws select indices 0, 1, 2 from a
3-element candidate set. -/
def rndCex : ℕ → ℚ := fun k => (k : ℚ) / 3

/-- Sample point (100, 0) in the X–Z plane. -/
noncomputable def cexP1 : Vec3 := ⟨100, 0, 0⟩

/-- Sample point (-100, 0) in the X–Z plane. -/
noncomputable def cexP2 : Vec3 := ⟨-100, 0, 0⟩

/-- Sample point (0, 100) in the X–Z plane. -/
noncomputable def cexP3 : Vec3 := ⟨0, 0, 100⟩

/-- Three points on the circle of centre (0, 0) and radius 100 whose centre
depth (z = 0) is *not* strictly greater than all three sample depths. -/
noncomputable def cexPoints : List Vec3 := [cexP1, cexP2, cexP3]

/-- The circle through `cexP1`, `cexP2`, `cexP3`. -/
noncomputable def cexCircle : Circle2 := ⟨0, 0, 100⟩

/-- Sample point (-60, 80). -/
noncomputable def wexP1 : Vec3 := ⟨-60, 0, 80⟩

/-- Sample point (0, 100). -/
noncomputable def wexP2 : Vec3 := ⟨0, 0, 100⟩

/-- Sample point (60, 80). -/
noncomputable def wexP3 : Vec3 := ⟨60, 0, 80⟩

/-- Three points on the lower arc of the circle of centre (0, 0) and radius
100: the centre is strictly shallower (smaller z) than all three. -/
noncomputable def wexPoints : List Vec3 := [wexP1, wexP2, wexP3]

/-- The circle through `wexP1`, `wexP2`, `wexP3`. -/
noncomputable def wexCircle : Circle2 := ⟨0, 0, 100⟩

/-- Fifteen collinear points (enough to pass the minimum-size guard). -/
noncomputable def pts15 : List Vec3 :=
  (List.range 15).map (fun i => ⟨(i : ℝ), 0, 0⟩)

/-- Three valid interpolator points at columns 0, 2, 4 (max column 4). -/
def c7pts : List IPoint :=
  [⟨0, 10, 100, 50, true⟩, ⟨2, 20, 100, 50, true⟩, ⟨4, 30, 100, 50, true⟩]

/-- One valid Gaussian-variant point (width 3 ≥ 1). -/
noncomputable def g1pts : List GPoint := [⟨0, 1, 2, 3, true⟩]

/-- The scaled copy of `c7pts` for `targetResolution = 8`: the scale factor
is `8 / 4 = 2`, so the columns become 0, 4 and 8 — the last lands one past
the final cell index 7. -/
def c7scaled : List IPoint :=
  [⟨0, 10, 100, 50, true⟩, ⟨4, 20, 100, 50, true⟩, ⟨8, 30, 100, 50, true⟩]

/-- Trivial UTF-8 decoding oracle (its value is irrelevant to the claims). -/
def decU0 : List Byte → String := fun _ => ""

/-- `JSON.parse` oracle that always fails. -/
def jsonP0 : String → Option String := fun _ => none

/-- 12-byte buffer: format 2, version 1, headerSize 12,
`pointsPerProfile = 0`. -/
def zeroPointsBuf : List Byte := [2, 1, 0, 12, 0, 0, 0, 0, 0, 0, 0, 0]

/-- 12-byte buffer: format 2, version 5 (mismatch), headerSize 12,
`pointsPerProfile = 1`, no profile body. -/
def versionBuf : List Byte := [2, 5, 0, 12, 0, 1, 0, 0, 0, 0, 0, 0]

/-- 18-byte buffer: valid header (`P = 1`, headerSize 12), one profile with
comment length `-1` (bytes `0xFF 0xFF`) followed by one point record
`(raw yOffset 16, intensity 5, width 3)`. -/
def negCommentBuf : List Byte :=
  [2, 1, 0, 12, 0, 1, 0, 0, 0, 0, 0, 0, 255, 255, 0, 16, 5, 3]

/-- 15-byte buffer: valid header (`P = 1`), one profile whose comment length
is `5` but only one comment byte remains — cut inside the comment bytes. -/
def cutCommentBuf : List Byte :=
  [2, 1, 0, 12, 0, 1, 0, 0, 0, 0, 0, 0, 0, 5, 65]

/-- `negCommentBuf` cut one byte before the end of its point record. -/
def cutPointsBuf : List Byte := negCommentBuf.take 17

/-! ## Theorems -/

/-- Helper: the step equation of the profile loop when a complete profile
(comment-length field, comment bytes, `P × 4` point bytes) is available at
offset `off`. -/
theorem parseProfiles_cons (decodeUtf8 : List Byte → String)
    (jsonParse : String → Option String) (bytes : List Byte)
    (P fuel off idx : ℕ) (h2 : off + 2 ≤ bytes.length)
    (hfit : off + 2 + commentSkip bytes off + P * 4 ≤ bytes.length) :
    (parseProfiles decodeUtf8 jsonParse bytes P (fuel + 1) off idx).1
      = { index := idx
          comment := (commentData decodeUtf8 jsonParse bytes off).2
          rawComment := (commentData decodeUtf8 jsonParse bytes off).1
          points := parseProfilePoints bytes P (off + 2 + commentSkip bytes off)
          validCount := ((parseProfilePoints bytes P
              (off + 2 + commentSkip bytes off)).filter (·.valid)).length
          startOffset := off }
        :: (parseProfiles decodeUtf8 jsonParse bytes P fuel
              (off + 2 + commentSkip bytes off + P * 4) (idx + 1)).1 := by
  have hlt : off < bytes.length := by omega
  have hn2 : ¬ (off + 2 > bytes.length) := by omega
  have hnc : ¬ (readInt16BE bytes off > 0
      ∧ off + 2 + (readInt16BE bytes off).toNat > bytes.length) := by
    rintro ⟨hpos, hbig⟩
    have : commentSkip bytes off = (readInt16BE bytes off).toNat := by
      simp [commentSkip, hpos]
    omega
  have hnp : ¬ (off + 2 + commentSkip bytes off + P * 4 > bytes.length) := by
    omega
  simp only [parseProfiles, if_pos hlt, if_neg hn2, if_neg hnc, if_neg hnp]

/-- Helper: the profile loop contributes no profile when the remaining bytes
are cut at the comment-length field, inside the comment bytes, or inside the
point records. -/
theorem parseProfiles_break (decodeUtf8 : List Byte → String)
    (jsonParse : String → Option String) (bytes : List Byte)
    (P fuel off idx : ℕ)
    (h : off + 2 > bytes.length
      ∨ (readInt16BE bytes off > 0
          ∧ off + 2 + (readInt16BE bytes off).toNat > bytes.length)
      ∨ off + 2 + commentSkip bytes off + P * 4 > bytes.length) :
    (parseProfiles decodeUtf8 jsonParse bytes P fuel off idx).1 = [] := by
  match fuel with
  | 0 => simp [parseProfiles]
  | fuel + 1 =>
    by_cases hlt : off < bytes.length
    · by_cases h2 : off + 2 > bytes.length
      · simp [parseProfiles, hlt, h2]
      · by_cases hc : readInt16BE bytes off > 0
            ∧ off + 2 + (readInt16BE bytes off).toNat > bytes.length
        · simp [parseProfiles, hlt, h2, hc]
        · have hp : off + 2 + commentSkip bytes off + P * 4 > bytes.length := by
            rcases h with h | h | h
            · omega
            · exact absurd h hc
            · exact h
          simp [parseProfiles, hlt, h2, hc, hp]
    · simp [parseProfiles, hlt]

/-- Helper: the header checks of `parseBinFile` characterize its failure.
`decode` succeeds iff the buffer has at least 12 bytes, the format tag is 2,
and `pointsPerProfile` is nonzero. -/
theorem parseBinFile_ok_iff (decodeUtf8 : List Byte → String)
    (jsonParse : String → Option String) (bytes : List Byte) :
    (∃ r, parseBinFile decodeUtf8 jsonParse bytes = .ok r) ↔
      ¬ (bytes.length < 12 ∨ headerFormat bytes ≠ 2
          ∨ headerPointsPerProfile bytes = 0) := by
  by_cases h1 : bytes.length < 12
  · simp [parseBinFile, h1]
  · by_cases h2 : headerFormat bytes = 2
    · by_cases h3 : headerPointsPerProfile bytes = 0
      · simp [parseBinFile, h1, h2, h3]
      · simp [parseBinFile, h1, h2, h3]
    · simp [parseBinFile, h1, h2]

/-- **C2** (amended): `decode` fails exactly when the buffer is shorter than
12 bytes, the format tag (high byte of the first big-endian 16-bit field) is
not 2, **or the `pointsPerProfile` header field is 0**; a version mismatch
(low byte ≠ 1) never aborts decoding — parsing succeeds and the warning
transcript records the mismatch. -/
theorem decode_failure_characterization (decodeUtf8 : List Byte → String)
    (jsonParse : String → Option String) (bytes : List Byte) :
    ((∃ r, parseBinFile decodeUtf8 jsonParse bytes = .ok r) ↔
      ¬ (bytes.length < 12 ∨ headerFormat bytes ≠ 2
          ∨ headerPointsPerProfile bytes = 0))
    ∧ (headerVersion bytes ≠ 1 → ¬ bytes.length < 12 → headerFormat bytes = 2 →
        headerPointsPerProfile bytes ≠ 0 →
        ∃ r, parseBinFile decodeUtf8 jsonParse bytes = .ok r
          ∧ "Unexpected version (expected 1)" ∈ r.2) := by
  refine ⟨parseBinFile_ok_iff decodeUtf8 jsonParse bytes, ?_⟩
  intro hv h1 h2 h3
  simp [parseBinFile, h1, h2, h3, hv]

/-- Witness for **C2**: `versionBuf` has version byte 5 ≠ 1 yet decodes
successfully, with the mismatch recorded in the warning transcript. -/
theorem decode_failure_characterization_witness :
    ∃ r, parseBinFile decU0 jsonP0 versionBuf = .ok r
      ∧ "Unexpected version (expected 1)" ∈ r.2 :=
  (decode_failure_characterization decU0 jsonP0 versionBuf).2
    (by decide) (by decide) (by decide) (by decide)

/-- Counterexample to **C2** as stated: `zeroPointsBuf` is 12 bytes long with
format tag 2, yet `decode` throws (because `pointsPerProfile` is 0). -/
theorem decode_throws_on_zero_pointsPerProfile :
    parseBinFile decU0 jsonP0 zeroPointsBuf
        = .error "Points per profile is 0, invalid file."
    ∧ ¬ (zeroPointsBuf.length < 12 ∨ headerFormat zeroPointsBuf ≠ 2) := by
  exact ⟨rfl, by decide⟩

/-- **C3**: with a valid header `decode` never throws, and the profile loop,
cut off mid-profile — at the comment-length field, inside the comment bytes,
or inside the point records — contributes zero profiles from the truncated
profile, while a complete profile is parsed and decoding continues after it
(partial-success policy). -/
theorem truncation_partial_success (decodeUtf8 : List Byte → String)
    (jsonParse : String → Option String) (bytes : List Byte) :
    (¬ bytes.length < 12 → headerFormat bytes = 2 →
      headerPointsPerProfile bytes ≠ 0 →
      ∃ r, parseBinFile decodeUtf8 jsonParse bytes = .ok r)
    ∧ (∀ P fuel off idx,
        (off + 2 > bytes.length
          ∨ (readInt16BE bytes off > 0
              ∧ off + 2 + (readInt16BE bytes off).toNat > bytes.length)
          ∨ off + 2 + commentSkip bytes off + P * 4 > bytes.length) →
        (parseProfiles decodeUtf8 jsonParse bytes P fuel off idx).1 = [])
    ∧ (∀ P fuel off idx, off + 2 ≤ bytes.length →
        off + 2 + commentSkip bytes off + P * 4 ≤ bytes.length →
        (parseProfiles decodeUtf8 jsonParse bytes P (fuel + 1) off idx).1
          = { index := idx
              comment := (commentData decodeUtf8 jsonParse bytes off).2
              rawComment := (commentData decodeUtf8 jsonParse bytes off).1
              points := parseProfilePoints bytes P
                  (off + 2 + commentSkip bytes off)
              validCount := ((parseProfilePoints bytes P
                  (off + 2 + commentSkip bytes off)).filter (·.valid)).length
              startOffset := off }
            :: (parseProfiles decodeUtf8 jsonParse bytes P fuel
                  (off + 2 + commentSkip bytes off + P * 4) (idx + 1)).1) := by
  refine ⟨?_, ?_, ?_⟩
  · intro h1 h2 h3
    exact (parseBinFile_ok_iff decodeUtf8 jsonParse bytes).2 (by tauto)
  · intro P fuel off idx h
    exact parseProfiles_break decodeUtf8 jsonParse bytes P fuel off idx h
  · intro P fuel off idx h2 hfit
    exact parseProfiles_cons decodeUtf8 jsonParse bytes P fuel off idx h2 hfit

/-- Witness for **C3**: on concrete buffers — `negCommentBuf` decodes without
throwing; the loop yields no profile when cut at the comment-length field
(`negCommentBuf` at offset 17), inside the comment bytes (`cutCommentBuf`),
or inside the point records (`cutPointsBuf`); and on the complete
`negCommentBuf` it parses the profile and continues. -/
theorem truncation_partial_success_witness :
    (∃ r, parseBinFile decU0 jsonP0 negCommentBuf = .ok r)
    ∧ (parseProfiles decU0 jsonP0 negCommentBuf 1 10000 17 0).1 = []
    ∧ (parseProfiles decU0 jsonP0 cutCommentBuf 1 10000 12 0).1 = []
    ∧ (parseProfiles decU0 jsonP0 cutPointsBuf 1 10000 12 0).1 = []
    ∧ (parseProfiles decU0 jsonP0 negCommentBuf 1 10000 12 0).1
        = { index := 0
            comment := (commentData decU0 jsonP0 negCommentBuf 12).2
            rawComment := (commentData decU0 jsonP0 negCommentBuf 12).1
            points := parseProfilePoints negCommentBuf 1
                (12 + 2 + commentSkip negCommentBuf 12)
            validCount := ((parseProfilePoints negCommentBuf 1
                (12 + 2 + commentSkip negCommentBuf 12)).filter (·.valid)).length
            startOffset := 12 }
          :: (parseProfiles decU0 jsonP0 negCommentBuf 1 9999
                (12 + 2 + commentSkip negCommentBuf 12 + 1 * 4) 1).1 := by
  refine ⟨(truncation_partial_success decU0 jsonP0 negCommentBuf).1
      (by decide) (by decide) (by decide),
    (truncation_partial_success decU0 jsonP0 negCommentBuf).2.1 1 10000 17 0
      (by decide),
    (truncation_partial_success decU0 jsonP0 cutCommentBuf).2.1 1 10000 12 0
      (by decide),
    (truncation_partial_success decU0 jsonP0 cutPointsBuf).2.1 1 10000 12 0
      (by decide),
    (truncation_partial_success decU0 jsonP0 negCommentBuf).2.2 1 9999 12 0
      (by decide) (by decide)⟩

/-- **C6**: the decoded `yOffset` of every point record is exactly the raw
big-endian 16-bit value divided by 16; in particular raw 0 ↦ 0.0,
raw 16 ↦ 1.0 and raw 65535 ↦ 4095.9375. -/
theorem yOffset_fixed_point (bytes : List Byte) (off col : ℕ) :
    (parsePointRecord bytes off col).yOffset
        = (readUInt16BE bytes off : ℚ) / 16
    ∧ decodeYOffset12_4 0 = 0
    ∧ decodeYOffset12_4 16 = 1
    ∧ decodeYOffset12_4 65535 = 4095.9375 := by
  refine ⟨rfl, by norm_num [decodeYOffset12_4], by norm_num [decodeYOffset12_4],
    by norm_num [decodeYOffset12_4]⟩

/-- **C10**: a profile whose 2-byte signed comment-length field is zero or
negative decodes successfully with empty raw comment and no structured
comment, and decoding continues with the point data immediately after the
2-byte length field (the comment section consumes no further bytes). -/
theorem nonpositive_comment_length (decodeUtf8 : List Byte → String)
    (jsonParse : String → Option String) (bytes : List Byte)
    (P fuel off idx : ℕ)
    (hC : readInt16BE bytes off ≤ 0)
    (hP : off + 2 + P * 4 ≤ bytes.length) :
    (parseProfiles decodeUtf8 jsonParse bytes P (fuel + 1) off idx).1
      = { index := idx
          comment := none
          rawComment := ""
          points := parseProfilePoints bytes P (off + 2)
          validCount :=
            ((parseProfilePoints bytes P (off + 2)).filter (·.valid)).length
          startOffset := off }
        :: (parseProfiles decodeUtf8 jsonParse bytes P fuel
              (off + 2 + P * 4) (idx + 1)).1 := by
  have hCneg : ¬ (readInt16BE bytes off > 0) := by omega
  have hskip : commentSkip bytes off = 0 := by simp [commentSkip, hCneg]
  have hcd : commentData decodeUtf8 jsonParse bytes off = ("", none) := by
    simp [commentData, hCneg]
  have := parseProfiles_cons decodeUtf8 jsonParse bytes P fuel off idx
    (by omega) (by omega)
  rw [this, hcd, hskip]

/-- Witness for **C10**: `negCommentBuf` carries comment length `-1`; its
profile decodes with empty comment and the point record is read directly
after the length field. -/
theorem nonpositive_comment_length_witness :
    readInt16BE negCommentBuf 12 ≤ 0
    ∧ (parseProfiles decU0 jsonP0 negCommentBuf 1 10000 12 0).1
        = { index := 0
            comment := none
            rawComment := ""
            points := parseProfilePoints negCommentBuf 1 (12 + 2)
            validCount := ((parseProfilePoints negCommentBuf 1
                (12 + 2)).filter (·.valid)).length
            startOffset := 12 }
          :: (parseProfiles decU0 jsonP0 negCommentBuf 1 9999
                (12 + 2 + 1 * 4) 1).1 :=
  ⟨by decide,
    nonpositive_comment_length decU0 jsonP0 negCommentBuf 1 9999 12 0
      (by decide) (by decide)⟩

/-! ### Pipe detector theorems -/

/-- Helper: `Real.sqrt 10000 = 100`. -/
theorem sqrt_10000 : Real.sqrt 10000 = 100 := by
  rw [show (10000 : ℝ) = 100 ^ 2 by norm_num]
  exact Real.sqrt_sq (by norm_num)

/-- Helper: with the constant-zero stream, every iteration draws the same
index three times, so the step leaves the state unchanged. -/
theorem ransacStep_rnd0 (points : List Vec3) (searchIndices : List ℕ)
    (expectedRadius radTol tolerance : ℝ) (st : RansacState) (iter : ℕ) :
    ransacStep points searchIndices expectedRadius radTol tolerance rnd0
      st iter = st := by
  unfold ransacStep
  simp [rnd0]

/-- Helper: the whole 100-iteration loop is the identity on the initial
state under the constant-zero stream. -/
theorem ransacBest_rnd0 (points : List Vec3) (searchIndices : List ℕ)
    (expectedRadius radTol tolerance : ℝ) :
    ransacBest points searchIndices expectedRadius radTol tolerance rnd0
      = { bestCircle := none, bestInliers := [] } := by
  unfold ransacBest
  generalize (List.range 100) = l
  induction l with
  | nil => rfl
  | cons a l ih => rw [List.foldl_cons, ransacStep_rnd0]; exact ih

/-- **C5**: `detectPipe` returns `none` — for every random trace — when
fewer than 15 points are supplied, and likewise when the best hypothesis
after the 100 RANSAC iterations has fewer than 15 inliers. -/
theorem detect_none_guards (points : List Vec3) (expectedDiameter : ℝ)
    (prevResult : Option Circle2) (tolerance : ℝ) (rnd : ℕ → ℚ) :
    (points.length < 15 →
      detectPipe points expectedDiameter prevResult tolerance rnd = none)
    ∧ ((ransacBest points
          (searchIndicesFor points (expectedDiameter / 2) prevResult)
          (expectedDiameter / 2) (expectedDiameter / 2 * 0.25)
          tolerance rnd).bestInliers.length < 15 →
        detectPipe points expectedDiameter prevResult tolerance rnd = none) := by
  constructor
  · intro h
    simp [detectPipe, h]
  · intro h
    by_cases hlen : points.length < 15
    · simp [detectPipe, hlen]
    · simp only [detectPipe, if_neg hlen]
      cases hb : (ransacBest points
          (searchIndicesFor points (expectedDiameter / 2) prevResult)
          (expectedDiameter / 2) (expectedDiameter / 2 * 0.25)
          tolerance rnd).bestCircle with
      | none => simp [hb]
      | some c => simp [hb, h]

/-- Witness for **C5**: the empty profile (0 < 15 points) and a 15-point
profile under the constant-zero trace (whose best hypothesis has 0 < 15
inliers) both yield `none`. -/
theorem detect_none_guards_witness :
    (([] : List Vec3).length < 15 ∧ detectPipe [] 200 none 8 rnd0 = none)
    ∧ ((ransacBest pts15 (searchIndicesFor pts15 (200 / 2) none)
          (200 / 2) (200 / 2 * 0.25) 8 rnd0).bestInliers.length < 15
      ∧ detectPipe pts15 200 none 8 rnd0 = none) := by
  have hlen : (ransacBest pts15 (searchIndicesFor pts15 (200 / 2) none)
      (200 / 2) (200 / 2 * 0.25) 8 rnd0).bestInliers.length < 15 := by
    rw [ransacBest_rnd0]; simp
  exact ⟨⟨by simp, (detect_none_guards [] 200 none 8 rnd0).1 (by simp)⟩,
    ⟨hlen, (detect_none_guards pts15 200 none 8 rnd0).2 hlen⟩⟩

/-- **C1** (amended): a candidate circle of one RANSAC iteration is rejected
(the state is unchanged, so it contributes no inlier count and cannot become
the best hypothesis) whenever its radius deviates from the expected radius
by more than the radius tolerance (25 % of the expected radius in
`detectPipe`), or whenever its centre's depth z is strictly **less** than
the z of **all three** sampled points (the code keeps any candidate whose
centre is at least as deep as one of its three samples). -/
theorem ransac_candidate_rejected (points : List Vec3)
    (searchIndices : List ℕ) (expectedRadius radTol tolerance : ℝ)
    (rnd : ℕ → ℚ) (st : RansacState) (iter : ℕ) (i1 i2 i3 : ℕ) (c : Circle2)
    (h1 : drawIndex searchIndices (rnd (3 * iter)) = i1)
    (h2 : drawIndex searchIndices (rnd (3 * iter + 1)) = i2)
    (h3 : drawIndex searchIndices (rnd (3 * iter + 2)) = i3)
    (hc : getCircleFrom3Points (points.getD i1 ⟨0, 0, 0⟩)
        (points.getD i2 ⟨0, 0, 0⟩) (points.getD i3 ⟨0, 0, 0⟩) = some c)
    (hrej : |c.radius - expectedRadius| > radTol
      ∨ (c.cz < (points.getD i1 ⟨0, 0, 0⟩).z
          ∧ c.cz < (points.getD i2 ⟨0, 0, 0⟩).z
          ∧ c.cz < (points.getD i3 ⟨0, 0, 0⟩).z)) :
    ransacStep points searchIndices expectedRadius radTol tolerance rnd
      st iter = st := by
  unfold ransacStep
  rw [h1, h2, h3]
  by_cases heq : i1 = i2 ∨ i2 = i3 ∨ i1 = i3
  · simp [heq]
  · simp only [if_neg heq, hc]
    rcases hrej with hr | hz
    · rw [if_pos hr]
    · by_cases hrad : |c.radius - expectedRadius| > radTol
      · rw [if_pos hrad]
      · rw [if_neg hrad, if_pos hz]

/-- Witness for **C1**: the circle through the lower-arc samples `wexP1`,
`wexP2`, `wexP3` has its centre strictly shallower than all three samples,
and the iteration drawing them leaves the RANSAC state unchanged. -/
theorem ransac_candidate_rejected_witness :
    (wexCircle.cz < wexP1.z ∧ wexCircle.cz < wexP2.z ∧ wexCircle.cz < wexP3.z)
    ∧ ransacStep wexPoints [0, 1, 2] 100 (100 * 0.25) 8 rndCex
        { bestCircle := none, bestInliers := [] } 0
      = { bestCircle := none, bestInliers := [] } := by
  have hwc : getCircleFrom3Points wexP1 wexP2 wexP3 = some wexCircle := by
    unfold getCircleFrom3Points wexP1 wexP2 wexP3 wexCircle
    rw [if_neg (by norm_num)]
    norm_num [Circle2.mk.injEq, sqrt_10000]
  refine ⟨by norm_num [wexCircle, wexP1, wexP2, wexP3], ?_⟩
  exact ransac_candidate_rejected wexPoints [0, 1, 2] 100 (100 * 0.25) 8
    rndCex { bestCircle := none, bestInliers := [] } 0 0 1 2 wexCircle
    (by norm_num [drawIndex, rndCex]) (by norm_num [drawIndex, rndCex])
    (by norm_num [drawIndex, rndCex]; decide)
    (by simpa [wexPoints] using hwc)
    (Or.inr (by norm_num [wexPoints, wexP1, wexP2, wexP3, wexCircle]))

/-- Counterexample to **C1** as stated: the circle through `cexP1`, `cexP2`,
`cexP3` has centre depth 0, which is *not* strictly greater than all three
sample depths (it equals two of them), and its radius is exactly the
expected radius — yet the RANSAC iteration that draws these three points
*accepts* the candidate: it counts its inliers and makes it the best
hypothesis. -/
theorem ransac_z_constraint_counterexample :
    getCircleFrom3Points cexP1 cexP2 cexP3 = some cexCircle
    ∧ ¬ (cexCircle.cz > cexP1.z ∧ cexCircle.cz > cexP2.z
          ∧ cexCircle.cz > cexP3.z)
    ∧ |cexCircle.radius - 100| ≤ 100 * 0.25
    ∧ ransacStep cexPoints [0, 1, 2] 100 (100 * 0.25) 8 rndCex
        { bestCircle := none, bestInliers := [] } 0
      = { bestCircle := some cexCircle, bestInliers := [0, 1, 2] }
    ∧ ({ bestCircle := some cexCircle, bestInliers := [0, 1, 2] } : RansacState)
      ≠ { bestCircle := none, bestInliers := [] } := by
  have hcirc : getCircleFrom3Points cexP1 cexP2 cexP3 = some cexCircle := by
    unfold getCircleFrom3Points cexP1 cexP2 cexP3 cexCircle
    rw [if_neg (by norm_num)]
    norm_num [Circle2.mk.injEq, sqrt_10000]
  have hinl : countInliers cexPoints [0, 1, 2] cexCircle 8 = [0, 1, 2] := by
    unfold countInliers cexPoints cexP1 cexP2 cexP3 cexCircle
    norm_num [List.filter_cons, sqrt_10000]
  have e1 : drawIndex [0, 1, 2] (rndCex (3 * 0)) = 0 := by
    norm_num [drawIndex, rndCex]
  have e2 : drawIndex [0, 1, 2] (rndCex (3 * 0 + 1)) = 1 := by
    norm_num [drawIndex, rndCex]
  have e3 : drawIndex [0, 1, 2] (rndCex (3 * 0 + 2)) = 2 := by
    norm_num [drawIndex, rndCex]; decide
  have g1 : cexPoints.getD 0 (⟨0, 0, 0⟩ : Vec3) = cexP1 := rfl
  have g2 : cexPoints.getD 1 (⟨0, 0, 0⟩ : Vec3) = cexP2 := rfl
  have g3 : cexPoints.getD 2 (⟨0, 0, 0⟩ : Vec3) = cexP3 := rfl
  have hstep : ransacStep cexPoints [0, 1, 2] 100 (100 * 0.25) 8 rndCex
      { bestCircle := none, bestInliers := [] } 0
      = { bestCircle := some cexCircle, bestInliers := [0, 1, 2] } := by
    simp only [ransacStep, e1, e2, e3]
    rw [if_neg (by norm_num)]
    rw [g1, g2, g3]
    simp only [hcirc]
    rw [if_neg (by norm_num [cexCircle])]
    rw [if_neg (by norm_num [cexCircle, cexP1, cexP2, cexP3])]
    rw [hinl]
    norm_num
  refine ⟨hcirc, by norm_num [cexCircle, cexP1, cexP2, cexP3], ?_, hstep, ?_⟩
  · norm_num [cexCircle]
  · simp [RansacState.mk.injEq]

/-! ### Triangulation theorems -/

/-- Helper: the accepted-point fold equals `filterMap` over the pixels. -/
theorem foldl_push_filterMap (p : TriParams) :
    ∀ (l : List (ℝ × ℝ)) (acc : List Vec3),
      l.foldl (pushAccepted p) acc = acc ++ l.filterMap (triangulatePixel p)
  | [], acc => by simp
  | a :: l, acc => by
    cases hfa : triangulatePixel p a with
    | none =>
      simp [List.foldl_cons, List.filterMap_cons, hfa, pushAccepted,
        foldl_push_filterMap p l acc]
    | some b =>
      simp [List.foldl_cons, List.filterMap_cons, hfa, pushAccepted,
        foldl_push_filterMap p l (acc ++ [b])]

/-- Helper: shape of an accepted pixel — the ray/plane intersection exists
and is strictly deeper than the camera. -/
theorem triangulatePixel_some (p : TriParams) (uv : ℝ × ℝ) (pt : Vec3)
    (h : triangulatePixel p uv = some pt) :
    rayIntersectPlane (camPos p)
        (applyQuaternion (cameraQuat p) (normalizeV (localRayDir p uv.1 uv.2)))
        (laserPlaneNormal p) (laserPlaneConstant p) = some pt
      ∧ pt.z > (camPos p).z := by
  unfold triangulatePixel at h
  split at h
  · exact absurd h (by simp)
  · next pt' hr =>
    split at h
    · next hz => cases h; exact ⟨hr, hz⟩
    · exact absurd h (by simp)

/-- Helper: every point returned by `rayIntersectPlane` satisfies the plane
equation `normal ⋅ pt + constant = 0`. -/
theorem rayIntersectPlane_onPlane (origin dir normal : Vec3) (constant : ℝ)
    (pt : Vec3) (h : rayIntersectPlane origin dir normal constant = some pt) :
    dotV normal pt + constant = 0 := by
  unfold rayIntersectPlane at h
  split at h
  · next hden =>
    split at h
    · next h0 => cases h; exact h0
    · exact absurd h (by simp)
  · next hden =>
    split at h
    · next ht =>
      cases h
      unfold dotV at hden ⊢
      field_simp
      ring
    · exact absurd h (by simp)

/-- **C4**: every triangulated point is strictly deeper than the camera;
the output is the order-preserving `filterMap` of the per-pixel acceptance
over the zipped input arrays (misses are dropped silently, no error); and
for a pose whose laser plane lies entirely at depth ≤ the camera's the
output is empty. -/
theorem triangulate_depth_filter (pixelColumns pixelRows : List ℝ)
    (p : TriParams) :
    (∀ pt ∈ triangulate2Dto3D pixelColumns pixelRows p,
      pt.z > (camPos p).z)
    ∧ triangulate2Dto3D pixelColumns pixelRows p
        = (pixelColumns.zip pixelRows).filterMap (triangulatePixel p)
    ∧ ((∀ q : Vec3,
          dotV (laserPlaneNormal p) q + laserPlaneConstant p = 0 →
          q.z ≤ (camPos p).z) →
        triangulate2Dto3D pixelColumns pixelRows p = []) := by
  have heq : triangulate2Dto3D pixelColumns pixelRows p
      = (pixelColumns.zip pixelRows).filterMap (triangulatePixel p) := by
    unfold triangulate2Dto3D
    have h := foldl_push_filterMap p (pixelColumns.zip pixelRows) []
    rwa [List.nil_append] at h
  have hmem : ∀ pt ∈ triangulate2Dto3D pixelColumns pixelRows p,
      pt.z > (camPos p).z := by
    intro pt hpt
    rw [heq] at hpt
    obtain ⟨uv, _, huv⟩ := List.mem_filterMap.mp hpt
    exact (triangulatePixel_some p uv pt huv).2
  refine ⟨hmem, heq, ?_⟩
  intro hbehind
  rw [heq, List.filterMap_eq_nil_iff]
  intro uv _
  cases hres : triangulatePixel p uv with
  | none => rfl
  | some pt =>
    obtain ⟨hr, hz⟩ := triangulatePixel_some p uv pt hres
    have hp := rayIntersectPlane_onPlane _ _ _ _ _ hr
    exact absurd (hbehind pt hp) (by push_neg; exact hz)

/-- Helper: rotating the laser-local normal `(0, -1, 0)` about the X axis by
`θ` yields `(0, -cos θ, -sin θ)`. -/
theorem applyQuat_pitch (θ : ℝ) :
    applyQuaternion (quatFromEulerXYZ θ 0 0) ⟨0, -1, 0⟩
      = ⟨0, -Real.cos θ, -Real.sin θ⟩ := by
  have hc := Real.cos_two_mul (θ / 2)
  have hs := Real.sin_two_mul (θ / 2)
  rw [show 2 * (θ / 2) = θ by ring] at hc hs
  have hpy := Real.sin_sq_add_cos_sq (θ / 2)
  unfold applyQuaternion quatFromEulerXYZ
  rw [show (0 : ℝ) / 2 = 0 by norm_num, Real.sin_zero, Real.cos_zero]
  rw [Vec3.mk.injEq]
  refine ⟨by ring, ?_, ?_⟩
  · rw [hc]; linear_combination 2 * hpy
  · rw [hs]; ring

/-- Helper: `normalize` fixes the unit vector `(0, 0, 1)`. -/
theorem normalizeV_unitZ : normalizeV ⟨0, 0, 1⟩ = ⟨0, 0, 1⟩ := by
  unfold normalizeV
  norm_num

/-- Helper: `normalize` fixes the unit vector `(0, -1, 0)`. -/
theorem normalizeV_negY : normalizeV ⟨0, -1, 0⟩ = ⟨0, -1, 0⟩ := by
  unfold normalizeV
  norm_num

/-- Helper: with the laser pitched 90° (yaw = roll = 0) the laser plane
normal is `(0, 0, 1)`. -/
theorem laserPlaneNormal_pitch90 (p : TriParams) (hp : p.laserPitch = 90)
    (hy : p.laserYaw = 0) (hr : p.laserRoll = 0) :
    laserPlaneNormal p = ⟨0, 0, 1⟩ := by
  unfold laserPlaneNormal laserQuat
  rw [hp, hy, hr, show degToRad 0 = 0 by unfold degToRad; ring]
  rw [applyQuat_pitch]
  rw [show -(degToRad 90) = -(Real.pi / 2) by unfold degToRad; ring]
  rw [Real.cos_neg, Real.sin_neg, Real.cos_pi_div_two, Real.sin_pi_div_two]
  norm_num [normalizeV_unitZ]

/-- Helper: with all laser angles zero the laser plane normal is
`(0, -1, 0)`. -/
theorem laserPlaneNormal_zeroAngles (p : TriParams) (hp : p.laserPitch = 0)
    (hy : p.laserYaw = 0) (hr : p.laserRoll = 0) :
    laserPlaneNormal p = ⟨0, -1, 0⟩ := by
  unfold laserPlaneNormal laserQuat
  rw [hp, hy, hr, show degToRad 0 = 0 by unfold degToRad; ring, neg_zero]
  rw [applyQuat_pitch]
  rw [Real.cos_zero, Real.sin_zero]
  norm_num [normalizeV_negY]

/-- Helper: the identity rotation (all Euler angles 0). -/
theorem applyQuat_id (v : Vec3) :
    applyQuaternion (quatFromEulerXYZ 0 0 0) v = v := by
  cases v with
  | mk a b c =>
    unfold applyQuaternion quatFromEulerXYZ
    norm_num [Vec3.mk.injEq]

/-- Witness for **C4**: at `frontParams` the central pixel triangulates to
`(0, 0, 10)`, strictly deeper than the camera; at `behindParams` the laser
plane is `z = -10`, entirely behind the camera, and the output is empty. -/
theorem triangulate_depth_filter_witness :
    ((⟨0, 0, 10⟩ : Vec3) ∈ triangulate2Dto3D [0] [576] frontParams
      ∧ ((⟨0, 0, 10⟩ : Vec3)).z > (camPos frontParams).z)
    ∧ ((∀ q : Vec3, dotV (laserPlaneNormal behindParams) q
          + laserPlaneConstant behindParams = 0 →
          q.z ≤ (camPos behindParams).z)
      ∧ triangulate2Dto3D [5] [7] behindParams = []) := by
  have hnf : laserPlaneNormal frontParams = ⟨0, 0, 1⟩ :=
    laserPlaneNormal_pitch90 _ (by simp [frontParams, zeroParams])
      (by simp [frontParams, zeroParams]) (by simp [frontParams, zeroParams])
  have hcf : laserPlaneConstant frontParams = -10 := by
    unfold laserPlaneConstant laserPlanePoint
    rw [hnf]
    norm_num [dotV, frontParams, zeroParams]
  have hnb : laserPlaneNormal behindParams = ⟨0, 0, 1⟩ :=
    laserPlaneNormal_pitch90 _ (by simp [behindParams, zeroParams])
      (by simp [behindParams, zeroParams]) (by simp [behindParams, zeroParams])
  have hcb : laserPlaneConstant behindParams = 10 := by
    unfold laserPlaneConstant laserPlanePoint
    rw [hnb]
    norm_num [dotV, behindParams, zeroParams]
  have hldir : localRayDir frontParams 0 576 = ⟨0, 0, 1⟩ := by
    unfold localRayDir
    norm_num [frontParams, zeroParams]
  have hcq : cameraQuat frontParams = quatFromEulerXYZ 0 0 0 := by
    unfold cameraQuat
    norm_num [frontParams, zeroParams, show degToRad 0 = 0 by
      unfold degToRad; ring]
  have hpix : triangulatePixel frontParams (0, 576) = some ⟨0, 0, 10⟩ := by
    unfold triangulatePixel
    rw [show ((0 : ℝ), (576 : ℝ)).1 = 0 from rfl,
      show ((0 : ℝ), (576 : ℝ)).2 = 576 from rfl,
      hldir, normalizeV_unitZ, hcq, applyQuat_id, hnf, hcf]
    unfold rayIntersectPlane camPos dotV
    norm_num [frontParams, zeroParams]
  have htr : triangulate2Dto3D [0] [576] frontParams = [⟨0, 0, 10⟩] := by
    unfold triangulate2Dto3D
    simp [pushAccepted, hpix]
  have hmem : (⟨0, 0, 10⟩ : Vec3) ∈ triangulate2Dto3D [0] [576] frontParams := by
    rw [htr]; exact List.mem_singleton.mpr rfl
  have hbehind : ∀ q : Vec3, dotV (laserPlaneNormal behindParams) q
      + laserPlaneConstant behindParams = 0 →
      q.z ≤ (camPos behindParams).z := by
    intro q hq
    rw [hnb, hcb] at hq
    unfold dotV at hq
    norm_num at hq
    norm_num [camPos, behindParams, zeroParams]
    linarith
  exact ⟨⟨hmem, (triangulate_depth_filter [0] [576] frontParams).1 _ hmem⟩,
    hbehind, (triangulate_depth_filter [5] [7] behindParams).2.2 hbehind⟩

/-- **C9** (amended): whenever the laser-plane normal's y component has
magnitude at least `1e-6` (so that `getYOnPlane` actually back-solves y
instead of taking its degenerate 0 branch), every point generated by the
synthetic profile lies exactly on the laser plane. -/
theorem demoProfile_on_plane (p : TriParams) (d ox : ℝ) (n : ℕ)
    (hny : 1e-6 ≤ |(laserPlaneNormal p).y|) :
    ∀ pt ∈ generateDemoProfile p d ox n, planeResidual p pt = 0 := by
  intro pt hpt
  unfold generateDemoProfile at hpt
  obtain ⟨i, _, rfl⟩ := List.mem_map.mp hpt
  have hny0 : (laserPlaneNormal p).y ≠ 0 := by
    intro h0
    rw [h0] at hny
    norm_num at hny
  simp only [demoPoint, planeResidual, getYOnPlane, dotV]
  rw [if_neg (not_lt.mpr hny)]
  field_simp
  ring

/-- Witness for **C9**: at `zeroParams` the plane normal is `(0, -1, 0)`
(so `|normal.y| = 1 ≥ 1e-6`) and the generated point `(0, 0, 1300)` has
zero residual. -/
theorem demoProfile_on_plane_witness :
    (1e-6 ≤ |(laserPlaneNormal zeroParams).y|)
    ∧ planeResidual zeroParams ⟨0, 0, 1300⟩ = 0 := by
  have hn : laserPlaneNormal zeroParams = ⟨0, -1, 0⟩ :=
    laserPlaneNormal_zeroAngles _ (by simp [zeroParams]) (by simp [zeroParams])
      (by simp [zeroParams])
  have hny : 1e-6 ≤ |(laserPlaneNormal zeroParams).y| := by
    rw [hn]; norm_num
  have hdp : demoPoint zeroParams 200 0 3 1 = ⟨0, 0, 1300⟩ := by
    unfold demoPoint getYOnPlane laserPlanePoint
    rw [hn]
    norm_num [zeroParams, sqrt_10000]
  refine ⟨hny, demoProfile_on_plane zeroParams 200 0 3 hny ⟨0, 0, 1300⟩ ?_⟩
  unfold generateDemoProfile
  exact List.mem_map.mpr ⟨1, by simp, hdp⟩

/-- Counterexample to **C9** as stated: with the laser pitched 90° the plane
normal is `(0, 0, 1)` — its y component is below `1e-6` — and the generator
emits the point `(0, 0, 1300)` whose plane residual is 1300, far from 0. -/
theorem demoProfile_off_plane_counterexample :
    (⟨0, 0, 1300⟩ : Vec3) ∈ generateDemoProfile pitchParams 200 0 3
    ∧ planeResidual pitchParams ⟨0, 0, 1300⟩ = 1300
    ∧ (1300 : ℝ) ≠ 0 := by
  have hn : laserPlaneNormal pitchParams = ⟨0, 0, 1⟩ :=
    laserPlaneNormal_pitch90 _ (by simp [pitchParams, zeroParams])
      (by simp [pitchParams, zeroParams]) (by simp [pitchParams, zeroParams])
  have hdp : demoPoint pitchParams 200 0 3 1 = ⟨0, 0, 1300⟩ := by
    unfold demoPoint getYOnPlane laserPlanePoint
    rw [hn]
    norm_num [pitchParams, zeroParams, sqrt_10000]
  refine ⟨?_, ?_, by norm_num⟩
  · unfold generateDemoProfile
    exact List.mem_map.mpr ⟨1, by simp, hdp⟩
  · unfold planeResidual dotV laserPlanePoint
    rw [hn]
    norm_num [pitchParams, zeroParams]

/-! ### Interpolator invariant theorems (C8) -/

/-- Helper: a state invariant preserved by every step survives a fold. -/
theorem foldl_state_inv {σ ι : Type _} (P : σ → Prop) (f : σ → ι → σ) :
    ∀ (l : List ι) (s : σ), P s → (∀ s i, i ∈ l → P s → P (f s i)) →
      P (l.foldl f s)
  | [], s, h, _ => h
  | a :: l, s, h, hf =>
    foldl_state_inv P f l (f s a)
      (hf s a (List.mem_cons_self a l) h)
      (fun s' i hi => hf s' i (List.mem_cons_of_mem a hi))

/-- Helper: writing a well-formed point preserves the cell invariant. -/
theorem writeCell_StOK {st : ℕ → Option IPoint} {i : ℕ} {pt : IPoint}
    (h : StOK st) (hpt : IPointOK pt) : StOK (writeCell st i pt) := by
  intro c pt' hc
  unfold writeCell at hc
  split at hc
  · cases hc; exact hpt
  · exact h c pt' hc

/-- Helper: `0 < clamp255 q ↔ 0 < q`. -/
theorem clamp255_pos (q : ℚ) : 0 < clamp255 q ↔ 0 < q := by
  unfold clamp255
  rw [lt_max_iff, lt_min_iff]
  norm_num

/-- Helper: every Hermite fill point satisfies `valid = (width > 0)` — the
`valid` flag is computed from the unclamped rounded width, but clamping to
[0, 255] never changes the sign. -/
theorem hermitePoint_OK (points : List IPoint) (scaledLen i : ℕ)
    (p1 p2 : IPoint) (col : ℤ) :
    IPointOK (hermitePoint points scaledLen i p1 p2 col) := by
  unfold IPointOK hermitePoint
  simp only [decide_eq_decide]
  exact (clamp255_pos _).symm

/-- Helper: placing scaled points preserves the cell invariant. -/
theorem placePoints_StOK (T : ℕ) (sp : List IPoint) (st : ℕ → Option IPoint)
    (h : StOK st) (hsp : ∀ p ∈ sp, IPointOK p) :
    StOK (placePoints T sp st) := by
  unfold placePoints
  refine foldl_state_inv StOK _ sp st h ?_
  intro s p hp hs
  split
  · exact writeCell_StOK hs (hsp p hp)
  · exact hs

/-- Helper: the Hermite fill of one pair preserves the cell invariant. -/
theorem fillBetween_StOK (T : ℕ) (points sp : List IPoint) (i : ℕ)
    (st : ℕ → Option IPoint) (h : StOK st) :
    StOK (fillBetween T points sp i st) := by
  unfold fillBetween
  simp only []
  split
  · refine foldl_state_inv StOK _ _ st h ?_
    intro s k _ hs
    exact writeCell_StOK hs (hermitePoint_OK points sp.length i _ _ _)
  · exact h

/-- Helper: the whole Hermite fill preserves the cell invariant. -/
theorem fillAll_StOK (T : ℕ) (points sp : List IPoint)
    (st : ℕ → Option IPoint) (h : StOK st) :
    StOK (fillAll T points sp st) := by
  unfold fillAll
  refine foldl_state_inv StOK _ _ st h ?_
  intro s i _ hs
  exact fillBetween_StOK T points sp i s hs

/-- Helper: left edge extrapolation preserves the cell invariant. -/
theorem extrapolateLeft_StOK (T : ℕ) (first : IPoint)
    (st : ℕ → Option IPoint) (h : StOK st) (hf : IPointOK first) :
    StOK (extrapolateLeft T first st) := by
  unfold extrapolateLeft
  refine foldl_state_inv StOK _ _ st h ?_
  intro s col _ hs
  split
  · exact writeCell_StOK hs hf
  · exact hs

/-- Helper: right edge extrapolation preserves the cell invariant. -/
theorem extrapolateRight_StOK (T : ℕ) (last : IPoint)
    (st : ℕ → Option IPoint) (h : StOK st) (hl : IPointOK last) :
    StOK (extrapolateRight T last st) := by
  unfold extrapolateRight
  refine foldl_state_inv StOK _ _ st h ?_
  intro s col _ hs
  split
  · exact writeCell_StOK hs hl
  · exact hs

/-- Helper: `getLastD` of a nonempty list is a member. -/
theorem getLastD_mem_cons (a : IPoint) (l : List IPoint) :
    (a :: l).getLastD default ∈ a :: l := by
  induction l generalizing a with
  | nil => simp [List.getLastD]
  | cons b l ih =>
    rw [List.getLastD_cons]
    exact List.mem_cons_of_mem a (ih b)

/-- Helper: edge extrapolation preserves the cell invariant. -/
theorem extrapolateEdges_StOK (T : ℕ) (sp : List IPoint)
    (st : ℕ → Option IPoint) (h : StOK st) (hsp : ∀ p ∈ sp, IPointOK p) :
    StOK (extrapolateEdges T sp st) := by
  cases sp with
  | nil => exact h
  | cons first rest =>
    unfold extrapolateEdges
    exact extrapolateRight_StOK T _ _
      (extrapolateLeft_StOK T first st h
        (hsp first (List.mem_cons_self first rest)))
      (hsp _ (getLastD_mem_cons first rest))

/-- Helper: scaling preserves point well-formedness (only the column
changes). -/
theorem scalePoints_OK (T : ℕ) (maxCol : ℤ) (sorted : List IPoint)
    (h : ∀ p ∈ sorted, IPointOK p) :
    ∀ p ∈ scalePoints T maxCol sorted, IPointOK p := by
  intro p hp
  unfold scalePoints at hp
  obtain ⟨q, hq, rfl⟩ := List.mem_map.mp hp
  exact h q hq

/-- Helper: sorting preserves membership-based well-formedness. -/
theorem sortByColumn_OK (l : List IPoint) (h : ∀ p ∈ l, IPointOK p) :
    ∀ p ∈ sortByColumn l, IPointOK p := by
  intro p hp
  exact h p ((List.perm_insertionSort _ l).mem_iff.mp hp)

/-- Helper: every defined cell of the spline interpolator's output satisfies
the invariant whenever every input point does. -/
theorem interpolate_cells_OK (points : List IPoint) (T W : ℕ)
    (hwf : ∀ p ∈ points, IPointOK p) :
    ∀ o ∈ interpolateLaserProfile points T W, ∀ pt, o = some pt →
      IPointOK pt := by
  intro o ho pt hpt
  unfold interpolateLaserProfile at ho
  split at ho
  · simp at ho
  · simp only [] at ho
    split at ho
    · simp at ho
    · obtain ⟨c, _, rfl⟩ := List.mem_map.mp ho
      have hvalid : ∀ p ∈ points.filter (·.valid), IPointOK p := by
        intro p hp
        exact hwf p (List.mem_of_mem_filter hp)
      have hsorted := sortByColumn_OK _ hvalid
      have hscaled := scalePoints_OK T (maxColumn (points.filter (·.valid)))
        _ hsorted
      exact extrapolateEdges_StOK T _ _
        (fillAll_StOK T points _ _
          (placePoints_StOK T _ _ (fun _ _ h => by cases h) hscaled))
        hscaled c pt hpt

/-- Helper: Gaussian kernel weights are strictly positive. -/
theorem gaussWeight_pos (validPoints : List GPoint) (T col : ℕ)
    (pt : GPoint) : 0 < gaussWeight validPoints T col pt := by
  unfold gaussWeight
  exact Real.exp_pos _

/-- Helper: every defined cell of the Gaussian variant satisfies the
invariant when every valid input point has width ≥ 1 (as decoder-produced
points do). -/
theorem gauss_cells_OK (points : List GPoint) (T : ℕ)
    (hwf : ∀ p ∈ points, p.valid = true → 1 ≤ p.width) :
    ∀ o ∈ createRealisticLaserProfile points T, ∀ pt, o = some pt →
      pt.valid = decide (0 < pt.width) := by
  intro o ho pt hpt
  unfold createRealisticLaserProfile at ho
  simp only [] at ho
  split at ho
  · simp at ho
  · obtain ⟨col, _, rfl⟩ := List.mem_map.mp ho
    split at hpt
    · next htw =>
      cases hpt
      have hvp : ∀ p ∈ points.filter (·.valid), 1 ≤ p.width := by
        intro p hp
        exact hwf p (List.mem_of_mem_filter hp) (List.of_mem_filter hp)
      have hle : ((points.filter (·.valid)).map
            (gaussWeight (points.filter (·.valid)) T col)).sum
          ≤ ((points.filter (·.valid)).map
            (fun pt => pt.width * gaussWeight (points.filter (·.valid)) T col pt)).sum := by
        apply List.sum_le_sum
        intro p hp
        have := gaussWeight_pos (points.filter (·.valid)) T col p
        nlinarith [hvp p hp]
      have hbar : 1 ≤ ((points.filter (·.valid)).map
            (fun pt => pt.width * gaussWeight (points.filter (·.valid)) T col pt)).sum
          / ((points.filter (·.valid)).map
            (gaussWeight (points.filter (·.valid)) T col)).sum :=
        (one_le_div htw).mpr hle
      have h1 : (0 : ℝ) < ((points.filter (·.valid)).map
            (fun pt => pt.width * gaussWeight (points.filter (·.valid)) T col pt)).sum
          / ((points.filter (·.valid)).map
            (gaussWeight (points.filter (·.valid)) T col)).sum := by linarith
      have hfl : (1 : ℤ) ≤ jsRoundR (((points.filter (·.valid)).map
            (fun pt => pt.width * gaussWeight (points.filter (·.valid)) T col pt)).sum
          / ((points.filter (·.valid)).map
            (gaussWeight (points.filter (·.valid)) T col)).sum) := by
        unfold jsRoundR
        rw [Int.le_floor]
        push_cast
        linarith
      have h2 : (0 : ℝ) < ((jsRoundR (((points.filter (·.valid)).map
            (fun pt => pt.width * gaussWeight (points.filter (·.valid)) T col pt)).sum
          / ((points.filter (·.valid)).map
            (gaussWeight (points.filter (·.valid)) T col)).sum) : ℤ) : ℝ) := by
        exact_mod_cast lt_of_lt_of_le Int.zero_lt_one hfl
      simp only [decide_eq_true h1, decide_eq_true h2]
    · exact absurd hpt (by simp)

/-- **C8**: every ProfilePoint produced at the public interface satisfies
`valid = (width > 0)` — unconditionally for the decoder, and for both
interpolation operations whenever their input points are well-formed
ProfilePoints (decoder outputs are: `valid = (width > 0)` with integer
width, so valid points have width ≥ 1). -/
theorem profilePoint_valid_invariant :
    (∀ (bytes : List Byte) (P off : ℕ),
      ∀ pt ∈ parseProfilePoints bytes P off,
        pt.valid = decide (0 < pt.width))
    ∧ (∀ (points : List IPoint) (T W : ℕ),
        (∀ p ∈ points, IPointOK p) →
        ∀ o ∈ interpolateLaserProfile points T W, ∀ pt, o = some pt →
          IPointOK pt)
    ∧ (∀ (points : List GPoint) (T : ℕ),
        (∀ p ∈ points, p.valid = true → 1 ≤ p.width) →
        ∀ o ∈ createRealisticLaserProfile points T, ∀ pt, o = some pt →
          pt.valid = decide (0 < pt.width)) := by
  refine ⟨?_, interpolate_cells_OK, gauss_cells_OK⟩
  intro bytes P off pt hpt
  obtain ⟨col, _, rfl⟩ := List.mem_map.mp hpt
  rfl

/-- Witness for **C8**: concrete instances — the decoded point of
`negCommentBuf`, the spline interpolation of `c7pts`, and the Gaussian
reconstruction of `g1pts`. -/
theorem profilePoint_valid_invariant_witness :
    (∀ pt ∈ parseProfilePoints negCommentBuf 1 14,
      pt.valid = decide (0 < pt.width))
    ∧ ((∀ p ∈ c7pts, IPointOK p)
      ∧ ∀ o ∈ interpolateLaserProfile c7pts 8 8, ∀ pt, o = some pt →
          IPointOK pt)
    ∧ ((∀ p ∈ g1pts, p.valid = true → 1 ≤ p.width)
      ∧ ∀ o ∈ createRealisticLaserProfile g1pts 4, ∀ pt, o = some pt →
          pt.valid = decide (0 < pt.width)) := by
  have hwf2 : ∀ p ∈ c7pts, IPointOK p := by
    intro p hp
    unfold IPointOK
    simp only [c7pts, List.mem_cons, List.not_mem_nil, or_false] at hp
    rcases hp with rfl | rfl | rfl
    · exact (decide_eq_true (by norm_num)).symm
    · exact (decide_eq_true (by norm_num)).symm
    · exact (decide_eq_true (by norm_num)).symm
  have hwf3 : ∀ p ∈ g1pts, p.valid = true → 1 ≤ p.width := by
    intro p hp
    simp only [g1pts, List.mem_cons, List.not_mem_nil, or_false] at hp
    subst hp
    intro _
    norm_num
  exact ⟨profilePoint_valid_invariant.1 negCommentBuf 1 14,
    ⟨hwf2, profilePoint_valid_invariant.2.1 c7pts 8 8 hwf2⟩,
    ⟨hwf3, profilePoint_valid_invariant.2.2 g1pts 4 hwf3⟩⟩

/-! ### Interpolator definedness lemmas (C7) -/

/-- Helper: a defined cell stays defined through a fold whose steps preserve
definedness. -/
theorem foldl_defined_mono {ι : Type _}
    (f : (ℕ → Option IPoint) → ι → (ℕ → Option IPoint)) (c : ℕ)
    (hmono : ∀ st i, st c ≠ none → f st i c ≠ none) :
    ∀ (l : List ι) (st : ℕ → Option IPoint),
      st c ≠ none → l.foldl f st c ≠ none
  | [], _, h => h
  | a :: l, st, h => foldl_defined_mono f c hmono l (f st a) (hmono st a h)

/-- Helper: a fold is defined at a cell as soon as one of its steps
unconditionally writes it (and all steps preserve definedness). -/
theorem foldl_defined_of_mem {ι : Type _}
    (f : (ℕ → Option IPoint) → ι → (ℕ → Option IPoint)) (c : ℕ)
    (hmono : ∀ st i, st c ≠ none → f st i c ≠ none) :
    ∀ (l : List ι) (st : ℕ → Option IPoint),
      (∃ i ∈ l, ∀ st', f st' i c ≠ none) → l.foldl f st c ≠ none
  | [], _, ⟨_, hi, _⟩ => absurd hi (List.not_mem_nil _)
  | a :: l, st, ⟨i, hi, hw⟩ => by
    rcases List.mem_cons.mp hi with rfl | hi'
    · exact foldl_defined_mono f c hmono l (f st i) (hw st)
    · exact foldl_defined_of_mem f c hmono l (f st a) ⟨i, hi', hw⟩

/-- Helper: writing any cell preserves the definedness of cell `c`. -/
theorem writeCell_defined_mono (st : ℕ → Option IPoint) (i : ℕ)
    (pt : IPoint) (c : ℕ) (h : st c ≠ none) : writeCell st i pt c ≠ none := by
  unfold writeCell
  split
  · simp
  · exact h

/-- Helper: a written cell is defined. -/
theorem writeCell_defined_self (st : ℕ → Option IPoint) (i : ℕ)
    (pt : IPoint) : writeCell st i pt i ≠ none := by
  unfold writeCell
  simp

/-- Helper: placing points preserves definedness. -/
theorem placePoints_defined_mono (T : ℕ) (sp : List IPoint)
    (st : ℕ → Option IPoint) (c : ℕ) (h : st c ≠ none) :
    placePoints T sp st c ≠ none := by
  unfold placePoints
  refine foldl_defined_mono _ c ?_ sp st h
  intro st' p h'
  split
  · exact writeCell_defined_mono st' _ p c h'
  · exact h'

/-- Helper: the pair fill preserves definedness. -/
theorem fillBetween_defined_mono (T : ℕ) (points sp : List IPoint) (i : ℕ)
    (st : ℕ → Option IPoint) (c : ℕ) (h : st c ≠ none) :
    fillBetween T points sp i st c ≠ none := by
  unfold fillBetween
  split
  · refine foldl_defined_mono _ c ?_ _ st h
    intro st' k h'
    exact writeCell_defined_mono st' _ _ c h'
  · exact h

/-- Helper: the whole fill preserves definedness. -/
theorem fillAll_defined_mono (T : ℕ) (points sp : List IPoint)
    (st : ℕ → Option IPoint) (c : ℕ) (h : st c ≠ none) :
    fillAll T points sp st c ≠ none := by
  unfold fillAll
  refine foldl_defined_mono _ c ?_ _ st h
  intro st' i h'
  exact fillBetween_defined_mono T points sp i st' c h'

/-- Helper: left extrapolation preserves definedness. -/
theorem extrapolateLeft_defined_mono (T : ℕ) (first : IPoint)
    (st : ℕ → Option IPoint) (c : ℕ) (h : st c ≠ none) :
    extrapolateLeft T first st c ≠ none := by
  unfold extrapolateLeft
  refine foldl_defined_mono _ c ?_ _ st h
  intro st' col h'
  split
  · exact writeCell_defined_mono st' col _ c h'
  · exact h'

/-- Helper: right extrapolation preserves definedness. -/
theorem extrapolateRight_defined_mono (T : ℕ) (last : IPoint)
    (st : ℕ → Option IPoint) (c : ℕ) (h : st c ≠ none) :
    extrapolateRight T last st c ≠ none := by
  unfold extrapolateRight
  refine foldl_defined_mono _ c ?_ _ st h
  intro st' col h'
  split
  · exact writeCell_defined_mono st' col _ c h'
  · exact h'

/-- Helper: edge extrapolation preserves definedness. -/
theorem extrapolateEdges_defined_mono (T : ℕ) (sp : List IPoint)
    (st : ℕ → Option IPoint) (c : ℕ) (h : st c ≠ none) :
    extrapolateEdges T sp st c ≠ none := by
  cases sp with
  | nil => exact h
  | cons first rest =>
    unfold extrapolateEdges
    exact extrapolateRight_defined_mono T _ _ c
      (extrapolateLeft_defined_mono T first st c h)

/-- Helper: a scaled point whose column is in range gets placed. -/
theorem placePoints_defined (T : ℕ) (sp : List IPoint)
    (st : ℕ → Option IPoint) (c : ℕ)
    (hex : ∃ p ∈ sp, 0 ≤ p.column ∧ p.column < (T : ℤ)
      ∧ p.column.toNat = c) :
    placePoints T sp st c ≠ none := by
  obtain ⟨p, hp, h0, hT, hc⟩ := hex
  unfold placePoints
  refine foldl_defined_of_mem _ c ?_ sp st ⟨p, hp, ?_⟩
  · intro st' q h'
    split
    · exact writeCell_defined_mono st' _ q c h'
    · exact h'
  · intro st'
    rw [if_pos ⟨h0, hT⟩]
    rw [hc]
    exact writeCell_defined_self st' c p

/-- Helper: a column strictly between an adjacent pair of scaled columns
(and below `T - 1`) is written by the pair's Hermite fill. -/
theorem fillBetween_defined (T : ℕ) (points sp : List IPoint) (i : ℕ)
    (st : ℕ → Option IPoint) (c : ℕ)
    (h0 : 0 ≤ (sp.getD i default).column)
    (hlt : (sp.getD i default).column < (c : ℤ))
    (hlt2 : (c : ℤ) < (sp.getD (i + 1) default).column)
    (hT : (c : ℤ) < (T : ℤ) - 1) :
    fillBetween T points sp i st c ≠ none := by
  unfold fillBetween
  rw [if_pos (by omega : 1 < min ((T : ℤ) - 1) (sp.getD (i + 1) default).column
    - max 0 (sp.getD i default).column)]
  refine foldl_defined_of_mem _ c ?_ _ st
    ⟨((c : ℤ) - max 0 (sp.getD i default).column - 1).toNat, ?_, ?_⟩
  · intro st' k h'
    exact writeCell_defined_mono st' _ _ c h'
  · rw [List.mem_range]
    omega
  · intro st'
    rw [show (max 0 (sp.getD i default).column + 1
      + (((c : ℤ) - max 0 (sp.getD i default).column - 1).toNat : ℤ)).toNat
      = c by omega]
    exact writeCell_defined_self st' c _

/-- Helper: the whole fill writes any column strictly inside an adjacent
scaled pair. -/
theorem fillAll_defined (T : ℕ) (points sp : List IPoint)
    (st : ℕ → Option IPoint) (c : ℕ) (i : ℕ) (hi : i + 1 < sp.length)
    (h0 : 0 ≤ (sp.getD i default).column)
    (hlt : (sp.getD i default).column < (c : ℤ))
    (hlt2 : (c : ℤ) < (sp.getD (i + 1) default).column)
    (hT : (c : ℤ) < (T : ℤ) - 1) :
    fillAll T points sp st c ≠ none := by
  unfold fillAll
  refine foldl_defined_of_mem _ c ?_ _ st ⟨i, ?_, ?_⟩
  · intro st' j h'
    exact fillBetween_defined_mono T points sp j st' c h'
  · rw [List.mem_range]
    omega
  · intro st'
    exact fillBetween_defined T points sp i st' c h0 hlt hlt2 hT

/-- Helper: every still-empty column left of the first scaled point is
filled by the left extrapolation. -/
theorem extrapolateLeft_defined (T : ℕ) (first : IPoint)
    (st : ℕ → Option IPoint) (c : ℕ)
    (hc : (c : ℤ) < first.column) (hT : c < T) :
    extrapolateLeft T first st c ≠ none := by
  unfold extrapolateLeft
  refine foldl_defined_of_mem _ c ?_ _ st ⟨c, ?_, ?_⟩
  · intro st' col h'
    split
    · exact writeCell_defined_mono st' col _ c h'
    · exact h'
  · rw [List.mem_range]
    omega
  · intro st'
    split
    · exact writeCell_defined_self st' c _
    · next h' => exact h'

/-- Helper: the seed is below a max-fold. -/
theorem le_foldl_max : ∀ (l : List ℤ) (a : ℤ), a ≤ l.foldl max a
  | [], a => le_refl a
  | b :: l, a => le_trans (le_max_left a b) (le_foldl_max l (max a b))

/-- Helper: every member is below a max-fold. -/
theorem mem_le_foldl_max : ∀ (l : List ℤ) (a x : ℤ), x ∈ l → x ≤ l.foldl max a
  | b :: l, a, x, hx => by
    rcases List.mem_cons.mp hx with rfl | hx'
    · exact le_trans (le_max_right a x) (le_foldl_max l (max a x))
    · exact mem_le_foldl_max l (max a b) x hx'

/-- Helper: a max-fold is the seed or a member. -/
theorem foldl_max_mem : ∀ (l : List ℤ) (a : ℤ), l.foldl max a ∈ a :: l
  | [], a => List.mem_singleton.mpr rfl
  | b :: l, a => by
    rw [List.foldl_cons]
    rcases List.mem_cons.mp (foldl_max_mem l (max a b)) with h1 | h1
    · rw [h1]
      rcases max_choice a b with h2 | h2 <;> rw [h2]
      · exact List.mem_cons_self _ _
      · exact List.mem_cons_of_mem a (List.mem_cons_self _ _)
    · exact List.mem_cons_of_mem a (List.mem_cons_of_mem b h1)

/-- Helper: `maxColumn` bounds every member's column. -/
theorem maxColumn_le (l : List IPoint) (p : IPoint) (hp : p ∈ l) :
    p.column ≤ maxColumn l := by
  cases l with
  | nil => cases hp
  | cons a t =>
    show p.column ≤ ((t.map (·.column)).foldl max a.column)
    rcases List.mem_cons.mp hp with rfl | hp'
    · exact le_foldl_max _ _
    · exact mem_le_foldl_max _ _ _ (List.mem_map_of_mem _ hp')

/-- Helper: `maxColumn` of a nonempty list is attained by a member. -/
theorem maxColumn_mem (l : List IPoint) (h : l ≠ []) :
    ∃ p ∈ l, p.column = maxColumn l := by
  cases l with
  | nil => exact absurd rfl h
  | cons a t =>
    have hmem := foldl_max_mem (t.map (·.column)) a.column
    have hshow : maxColumn (a :: t)
        = (t.map (·.column)).foldl max a.column := rfl
    rcases List.mem_cons.mp hmem with h1 | h1
    · exact ⟨a, List.mem_cons_self a t, by rw [hshow]; exact h1.symm⟩
    · obtain ⟨q, hq, hq'⟩ := List.mem_map.mp h1
      exact ⟨q, List.mem_cons_of_mem a hq, by rw [hshow]; exact hq'⟩

/-- Helper: in-bounds `getD` values are members. -/
theorem getD_mem_of_lt {α : Type _} (l : List α) (i : ℕ) (h : i < l.length)
    (d : α) : l.getD i d ∈ l := by
  rw [List.getD_eq_getElem?_getD, List.getElem?_eq_getElem h]
  exact List.getElem_mem h

/-- Helper: `getD` through a column projection. -/
theorem getD_map_column (sp : List IPoint) (i : ℕ) (h : i < sp.length) :
    (sp.map (·.column)).getD i 0 = (sp.getD i default).column := by
  rw [List.getD_eq_getElem?_getD, List.getD_eq_getElem?_getD,
    List.getElem?_map, List.getElem?_eq_getElem h]
  rfl

/-- Helper: in a sorted integer list, a value between the first and last
entries is bracketed by an adjacent pair. -/
theorem sorted_find_surround :
    ∀ (l : List ℤ), l.Sorted (· ≤ ·) → ∀ c : ℤ,
      l.getD 0 0 ≤ c → c < l.getD (l.length - 1) 0 →
      ∃ i, i + 1 < l.length ∧ l.getD i 0 ≤ c ∧ c < l.getD (i + 1) 0
  | [], _, c, hh, hl => by
    simp [List.getD] at hh hl
    omega
  | [a], _, c, hh, hl => by
    simp [List.getD] at hh hl
    omega
  | a :: b :: t, hs, c, hh, hl => by
    by_cases hcb : c < b
    · exact ⟨0, by simp, hh, hcb⟩
    · push_neg at hcb
      have hs' : (b :: t).Sorted (· ≤ ·) := hs.of_cons
      have hl' : c < (b :: t).getD ((b :: t).length - 1) 0 := by
        simpa using hl
      obtain ⟨i, hi, h1, h2⟩ := sorted_find_surround (b :: t) hs' c hcb hl'
      exact ⟨i + 1, by simpa using hi, h1, h2⟩

/-- Helper: with a nonempty scaled point list — columns sorted,
nonnegative, and the last equal to `targetResolution` — every cell up to
`targetResolution - 2` is defined after place, fill, and edge
extrapolation. -/
theorem cellsDefined_of_scaled (T : ℕ) (points sp : List IPoint) (c : ℕ)
    (hsp_ne : sp ≠ [])
    (hrel : sp.Pairwise (fun a b : IPoint => a.column ≤ b.column))
    (hnn : ∀ p ∈ sp, 0 ≤ p.column)
    (hlast : (sp.getD (sp.length - 1) default).column = (T : ℤ))
    (hc : c + 2 ≤ T) :
    extrapolateEdges T sp (fillAll T points sp
      (placePoints T sp (fun _ => none))) c ≠ none := by
  have hlen : 0 < sp.length := List.length_pos.mpr hsp_ne
  by_cases hcase : (c : ℤ) < (sp.getD 0 default).column
  · -- cell left of the first scaled point: left extrapolation writes it
    obtain ⟨first, rest, hfr⟩ := List.exists_cons_of_ne_nil hsp_ne
    rw [hfr]
    unfold extrapolateEdges
    apply extrapolateRight_defined_mono
    apply extrapolateLeft_defined
    · rw [hfr] at hcase
      simpa using hcase
    · omega
  · push_neg at hcase
    have hcols_sorted : (sp.map (·.column)).Sorted (· ≤ ·) :=
      hrel.map _ (fun a b h => h)
    have hlast' : (c : ℤ) < (sp.getD (sp.length - 1) default).column := by
      rw [hlast]; omega
    obtain ⟨i, hi, h1, h2⟩ := sorted_find_surround (sp.map (·.column))
      hcols_sorted (c : ℤ)
      (by rw [getD_map_column sp 0 hlen]; exact hcase)
      (by rw [List.length_map, getD_map_column sp (sp.length - 1) (by omega)]
          exact hlast')
    rw [List.length_map] at hi
    rw [getD_map_column sp i (by omega)] at h1
    rw [getD_map_column sp (i + 1) (by omega)] at h2
    by_cases heq : (sp.getD i default).column = (c : ℤ)
    · -- the cell is a placed scaled point
      apply extrapolateEdges_defined_mono
      apply fillAll_defined_mono
      apply placePoints_defined
      refine ⟨sp.getD i default, getD_mem_of_lt sp i (by omega) default,
        hnn _ (getD_mem_of_lt sp i (by omega) default), ?_, ?_⟩
      · rw [heq]; omega
      · rw [heq]; omega
    · -- the cell lies strictly inside the bracketing pair: Hermite fill
      apply extrapolateEdges_defined_mono
      apply fillAll_defined T points sp _ c i hi
        (hnn _ (getD_mem_of_lt sp i (by omega) default))
        (lt_of_le_of_ne h1 heq) h2 (by omega)

/-- Helper: in-bounds `getD` equals `getElem`. -/
theorem getD_eq_getElem_of_lt {α : Type _} (l : List α) (i : ℕ)
    (h : i < l.length) (d : α) : l.getD i d = l[i] := by
  rw [List.getD_eq_getElem?_getD, List.getElem?_eq_getElem h]
  rfl

/-- Helper: scaling preserves the ascending column order (the scale factor
is nonnegative and rounding is monotone). -/
theorem scalePoints_pairwise (T : ℕ) (M : ℤ) (hM : 0 < M)
    (sorted : List IPoint)
    (h : sorted.Pairwise (fun a b : IPoint => a.column ≤ b.column)) :
    (scalePoints T M sorted).Pairwise
      (fun a b : IPoint => a.column ≤ b.column) := by
  unfold scalePoints
  refine List.Pairwise.map _ ?_ h
  intro a b hab
  have hfac : (0 : ℚ) ≤ (T : ℚ) / (M : ℚ) :=
    div_nonneg (by positivity) (by exact_mod_cast hM.le)
  apply Int.floor_le_floor
  have hab' : (a.column : ℚ) ≤ (b.column : ℚ) := by exact_mod_cast hab
  nlinarith

/-- Helper: scaled columns of nonnegative columns are nonnegative. -/
theorem scalePoints_nonneg (T : ℕ) (M : ℤ) (hM : 0 < M)
    (sorted : List IPoint) (h : ∀ p ∈ sorted, 0 ≤ p.column) :
    ∀ p ∈ scalePoints T M sorted, 0 ≤ p.column := by
  intro p hp
  unfold scalePoints at hp
  obtain ⟨q, hq, rfl⟩ := List.mem_map.mp hp
  have hfac : (0 : ℚ) ≤ (T : ℚ) / (M : ℚ) :=
    div_nonneg (by positivity) (by exact_mod_cast hM.le)
  show (0 : ℤ) ≤ ⌊(q.column : ℚ) * ((T : ℚ) / (M : ℚ)) + 1 / 2⌋
  rw [Int.le_floor]
  have h0 : (0 : ℚ) ≤ (q.column : ℚ) := by exact_mod_cast h q hq
  have := mul_nonneg h0 hfac
  push_cast
  linarith

/-- Helper: indexing through the scaling map. -/
theorem scalePoints_getD (T : ℕ) (M : ℤ) (sorted : List IPoint) (i : ℕ)
    (hi : i < sorted.length) :
    (scalePoints T M sorted).getD i default
      = { sorted.getD i default with
          column := ⌊((sorted.getD i default).column : ℚ)
            * ((T : ℚ) / (M : ℚ)) + 1 / 2⌋ } := by
  unfold scalePoints
  rw [List.getD_eq_getElem?_getD, List.getElem?_map,
    List.getElem?_eq_getElem hi, getD_eq_getElem_of_lt sorted i hi]
  rfl

/-- Helper: the maximum column scales exactly to `targetResolution` — one
past the final cell index. -/
theorem scalePoints_last (T : ℕ) (M : ℤ) (hM : 0 < M)
    (sorted : List IPoint) (hne : sorted ≠ [])
    (hlast : (sorted.getD (sorted.length - 1) default).column = M) :
    ((scalePoints T M sorted).getD
      ((scalePoints T M sorted).length - 1) default).column = (T : ℤ) := by
  have hlen0 : 0 < sorted.length := List.length_pos.mpr hne
  have hslen : (scalePoints T M sorted).length = sorted.length := by
    unfold scalePoints
    exact List.length_map _ _
  rw [hslen, scalePoints_getD T M sorted (sorted.length - 1) (by omega)]
  change (⌊((sorted.getD (sorted.length - 1) default).column : ℚ)
    * ((T : ℚ) / (M : ℚ)) + 1 / 2⌋ : ℤ) = (T : ℤ)
  rw [hlast]
  have hM0 : (M : ℚ) ≠ 0 := by exact_mod_cast hM.ne'
  rw [show ((M : ℚ)) * ((T : ℚ) / (M : ℚ)) = ((T : ℤ) : ℚ) by
    push_cast; field_simp]
  rw [Int.floor_int_add]
  norm_num

/-- **C7** (amended): for every input list containing at least one valid
point, all valid points at nonnegative columns and the maximum valid column
positive, `interpolate(points, targetResolution, imageWidth)` returns a
dense profile of exactly `targetResolution` entries with a defined sample
(placed, interpolated, or edge-extrapolated) at every column index from 0
to `targetResolution - 2`; the final column `targetResolution - 1` can be
left undefined, because the maximum observed column is rescaled to
`targetResolution` itself — one past the last array index. -/
theorem interpolate_dense_profile (points : List IPoint) (T W : ℕ)
    (hvalid : points.filter (·.valid) ≠ [])
    (hcols : ∀ p ∈ points, p.valid = true → 0 ≤ p.column)
    (hmax : 0 < maxColumn (points.filter (·.valid))) :
    (interpolateLaserProfile points T W).length = T
    ∧ ∀ c : ℕ, c + 2 ≤ T →
      (interpolateLaserProfile points T W).getD c none ≠ none := by
  have hpts : points ≠ [] := fun h => hvalid (by rw [h]; rfl)
  have hperm := List.perm_insertionSort
    (fun a b : IPoint => a.column ≤ b.column) (points.filter (·.valid))
  have hsorted_ne : sortByColumn (points.filter (·.valid)) ≠ [] := by
    intro h
    unfold sortByColumn at h
    rw [h] at hperm
    exact hvalid hperm.nil_eq.symm
  have hsorted_len : 0 < (sortByColumn (points.filter (·.valid))).length :=
    List.length_pos.mpr hsorted_ne
  have hsrt : (sortByColumn (points.filter (·.valid))).Pairwise
      (fun a b : IPoint => a.column ≤ b.column) :=
    List.sorted_insertionSort _ _
  have hsnn : ∀ p ∈ sortByColumn (points.filter (·.valid)), 0 ≤ p.column := by
    intro p hp
    have hp' : p ∈ points.filter (·.valid) := hperm.mem_iff.mp hp
    exact hcols p (List.mem_of_mem_filter hp') (List.of_mem_filter hp')
  have hsortlast : ((sortByColumn (points.filter (·.valid))).getD
      ((sortByColumn (points.filter (·.valid))).length - 1) default).column
      = maxColumn (points.filter (·.valid)) := by
    have hmem := getD_mem_of_lt (sortByColumn (points.filter (·.valid)))
      ((sortByColumn (points.filter (·.valid))).length - 1)
      (by omega) default
    have hle := maxColumn_le _ _ (hperm.mem_iff.mp hmem)
    obtain ⟨pm, hpm, hpmcol⟩ :=
      maxColumn_mem (points.filter (·.valid)) hvalid
    have hpm' : pm ∈ sortByColumn (points.filter (·.valid)) :=
      hperm.mem_iff.mpr hpm
    have hbound : pm.column ≤ ((sortByColumn (points.filter (·.valid))).getD
        ((sortByColumn (points.filter (·.valid))).length - 1) default).column := by
      rw [getD_eq_getElem_of_lt _ _ (by omega) default]
      obtain ⟨j, hjlt, hjeq⟩ := List.mem_iff_getElem.mp hpm'
      rcases Nat.lt_or_ge j
        ((sortByColumn (points.filter (·.valid))).length - 1) with hlt | hge
      · rw [← hjeq]
        exact List.pairwise_iff_getElem.mp hsrt j _ hjlt (by omega) hlt
      · have hj : j = (sortByColumn (points.filter (·.valid))).length - 1 := by
          omega
        subst hj
        rw [← hjeq]
    rw [← hpmcol] at hle ⊢
    exact le_antisymm hle hbound
  have hsp_ne : scalePoints T (maxColumn (points.filter (·.valid)))
      (sortByColumn (points.filter (·.valid))) ≠ [] := by
    intro h
    unfold scalePoints at h
    exact hsorted_ne (List.map_eq_nil_iff.mp h)
  have hresult : interpolateLaserProfile points T W
      = (List.range T).map
          (extrapolateEdges T
            (scalePoints T (maxColumn (points.filter (·.valid)))
              (sortByColumn (points.filter (·.valid))))
            (fillAll T points
              (scalePoints T (maxColumn (points.filter (·.valid)))
                (sortByColumn (points.filter (·.valid))))
              (placePoints T
                (scalePoints T (maxColumn (points.filter (·.valid)))
                  (sortByColumn (points.filter (·.valid))))
                (fun _ => none)))) := by
    unfold interpolateLaserProfile
    rw [if_neg hpts]
    simp only []
    rw [if_neg hvalid]
  constructor
  · rw [hresult, List.length_map, List.length_range]
  intro c hc
  have hclt : c < T := by omega
  rw [hresult, List.getD_eq_getElem?_getD, List.getElem?_map,
    List.getElem?_range hclt]
  simp only [Option.map_some', Option.getD_some]
  exact cellsDefined_of_scaled T points _ c hsp_ne
    (scalePoints_pairwise T _ hmax _ hsrt)
    (scalePoints_nonneg T _ hmax _ hsnn)
    (scalePoints_last T _ hmax _ hsorted_ne hsortlast)
    hc

/-- Witness for **C7**: `c7pts` (valid points at columns 0, 2, 4) with
`targetResolution = 8` — the output has 8 entries and columns 0‥6 are all
defined. -/
theorem interpolate_dense_profile_witness :
    (c7pts.filter (·.valid) ≠ []
      ∧ 0 < maxColumn (c7pts.filter (·.valid)))
    ∧ (interpolateLaserProfile c7pts 8 8).length = 8
    ∧ ∀ c : ℕ, c + 2 ≤ 8 →
      (interpolateLaserProfile c7pts 8 8).getD c none ≠ none := by
  have h := interpolate_dense_profile c7pts 8 8 (by decide) (by decide)
    (by decide)
  exact ⟨⟨by decide, by decide⟩, h.1, h.2⟩

/-- Helper: a fold whose steps never write cell `c` leaves it unchanged. -/
theorem foldl_preserve_cell {ι : Type _}
    (f : (ℕ → Option IPoint) → ι → (ℕ → Option IPoint)) (c : ℕ) :
    ∀ (l : List ι) (st : ℕ → Option IPoint),
      (∀ st' i, i ∈ l → f st' i c = st' c) → l.foldl f st c = st c
  | [], _, _ => rfl
  | a :: l, st, h => by
    rw [List.foldl_cons,
      foldl_preserve_cell f c l (f st a)
        (fun st' i hi => h st' i (List.mem_cons_of_mem a hi))]
    exact h st a (List.mem_cons_self a l)

/-- Counterexample to **C7** as stated: on `c7pts` (three valid points at
columns 0, 2, 4) with `targetResolution = 8`, the returned profile has 8
entries but cell 7 — the final column — is undefined: the maximum column 4
rescales to 8, past the last index, placement skips it, the pair fill stops
at column 6 (`endCol - 1`), and right edge extrapolation starts at column
`8 + 1 = 9`. -/
theorem interpolate_missing_last_cell :
    (interpolateLaserProfile c7pts 8 8).length = 8
    ∧ (interpolateLaserProfile c7pts 8 8).getD 7 none = none := by
  have hs : scalePoints 8 (maxColumn (c7pts.filter (·.valid)))
      (sortByColumn (c7pts.filter (·.valid))) = c7scaled := by
    show scalePoints 8 4 c7pts = c7scaled
    unfold scalePoints c7pts c7scaled
    norm_num [IPoint.mk.injEq]
  have hres : interpolateLaserProfile c7pts 8 8
      = (List.range 8).map (extrapolateEdges 8 c7scaled
          (fillAll 8 c7pts c7scaled
            (placePoints 8 c7scaled (fun _ => none)))) := by
    unfold interpolateLaserProfile
    rw [if_neg (by decide)]
    simp only []
    rw [if_neg (by decide), hs]
  have hplace : placePoints 8 c7scaled (fun _ => none) 7 = none := by
    unfold placePoints
    refine (foldl_preserve_cell _ 7 c7scaled (fun _ => none) ?_).trans rfl
    intro st' p hp
    simp only [c7scaled, List.mem_cons, List.not_mem_nil, or_false] at hp
    rcases hp with rfl | rfl | rfl
    · rw [if_pos (by decide)]
      unfold writeCell
      rw [if_neg (by decide)]
    · rw [if_pos (by decide)]
      unfold writeCell
      rw [if_neg (by decide)]
    · rw [if_neg (by decide)]
  have hfb0 : ∀ st, fillBetween 8 c7pts c7scaled 0 st 7 = st 7 := by
    intro st
    unfold fillBetween
    rw [if_pos (by decide)]
    refine foldl_preserve_cell _ 7 _ st ?_
    intro st' k hk
    rw [show ((((8 : ℕ) : ℤ) - 1) ⊓ (c7scaled.getD (0 + 1) default).column
      - 0 ⊔ (c7scaled.getD 0 default).column - 1).toNat = 3 from rfl,
      List.mem_range] at hk
    have hne : ¬ (7 = (max 0 (c7scaled.getD 0 default).column + 1
        + (k : ℤ)).toNat) := by
      rw [show max 0 (c7scaled.getD 0 default).column = 0 from rfl]
      omega
    unfold writeCell
    rw [if_neg hne]
  have hfb1 : ∀ st, fillBetween 8 c7pts c7scaled 1 st 7 = st 7 := by
    intro st
    unfold fillBetween
    rw [if_pos (by decide)]
    refine foldl_preserve_cell _ 7 _ st ?_
    intro st' k hk
    rw [show ((((8 : ℕ) : ℤ) - 1) ⊓ (c7scaled.getD (1 + 1) default).column
      - 0 ⊔ (c7scaled.getD 1 default).column - 1).toNat = 2 from rfl,
      List.mem_range] at hk
    have hne : ¬ (7 = (max 0 (c7scaled.getD 1 default).column + 1
        + (k : ℤ)).toNat) := by
      rw [show max 0 (c7scaled.getD 1 default).column = 4 from rfl]
      omega
    unfold writeCell
    rw [if_neg hne]
  have hfillAll : ∀ st, fillAll 8 c7pts c7scaled st 7 = st 7 := by
    intro st
    unfold fillAll
    refine foldl_preserve_cell _ 7 _ st ?_
    intro st' i hi
    rw [show c7scaled.length - 1 = 2 from rfl, List.mem_range] at hi
    interval_cases i
    · exact hfb0 st'
    · exact hfb1 st'
  have hleft : ∀ st, extrapolateLeft 8 (⟨0, 10, 100, 50, true⟩ : IPoint) st
      = st := by
    intro st
    unfold extrapolateLeft
    rw [show (min ((⟨0, 10, 100, 50, true⟩ : IPoint).column)
      ((8 : ℕ) : ℤ)).toNat = 0 from rfl]
    rfl
  have hright : ∀ st, extrapolateRight 8 (c7scaled.getLastD default) st 7
      = st 7 := by
    intro st
    unfold extrapolateRight
    refine foldl_preserve_cell _ 7 _ st ?_
    intro st' col hcol
    rw [List.mem_range] at hcol
    by_cases h7 : col = 7
    · subst h7
      have hng : ¬ ((c7scaled.getLastD default).column + 1 ≤ ((7 : ℕ) : ℤ)
          ∧ st' 7 = none) := by
        intro h
        have := h.1
        rw [show (c7scaled.getLastD default).column = 8 from rfl] at this
        omega
      rw [if_neg hng]
    · split
      · unfold writeCell
        rw [if_neg (fun h => h7 h.symm)]
      · rfl
  have hedges : extrapolateEdges 8 c7scaled
      (fillAll 8 c7pts c7scaled
        (placePoints 8 c7scaled (fun _ => none))) 7 = none := by
    show extrapolateRight 8 (c7scaled.getLastD default)
      (extrapolateLeft 8 (⟨0, 10, 100, 50, true⟩ : IPoint)
        (fillAll 8 c7pts c7scaled
          (placePoints 8 c7scaled (fun _ => none)))) 7 = none
    rw [hright, hleft, hfillAll, hplace]
  refine ⟨by rw [hres]; rfl, ?_⟩
  rw [hres, List.getD_eq_getElem?_getD, List.getElem?_map,
    List.getElem?_range (by norm_num : (7 : ℕ) < 8)]
  simp only [Option.map_some', Option.getD_some]
  exact hedges

end LaserAnalyzer
